import Mathlib

/-!
Verification of the Ingestion & Discourse-Analysis Engine of the
Thermoculture Research Assistant repository.

The Lean definitions below are shallow embeddings of the Python source:

* `backend/collectors/pipeline.py`  -- text normalisation, content
  fingerprinting and the ingest pipeline;
* `backend/collectors/locations.py` -- the gazetteer location matcher used
  by the ingest pipeline;
* `backend/nlp/geographic.py`       -- the coordinate-carrying gazetteer
  matcher used by the analysis orchestrator;
* `backend/nlp/sentiment.py`        -- the climate-aware sentiment scorer;
* `backend/nlp/classifier.py`       -- the weighted discourse classifier;
* `backend/nlp/analyzer.py`         -- batch orchestration and the
  trending-themes computation.

Python floats are modelled as exact rationals (`ℚ`), Python integers as
`Nat`/`Int`, sets as lists with membership, and fallible operations as
`Except`.  Text is modelled as `List Char`.
-/

namespace Thermo

/-! ## Python string primitives -/

/-- Whitespace as recognised by Python `str.isspace` (and hence by
`str.split()` and `str.strip()` with no arguments): ASCII whitespace, the
C1 separator controls, NEL, NBSP, and the Unicode space, line and
paragraph separators. -/
def isPySpace (c : Char) : Bool :=
  let n := c.toNat
  n = 0x20 || n = 0x9 || n = 0xa || n = 0xd || n = 0xb || n = 0xc ||
  n = 0x1c || n = 0x1d || n = 0x1e || n = 0x1f || n = 0x85 || n = 0xa0 ||
  n = 0x1680 || (0x2000 ≤ n && n ≤ 0x200a) || n = 0x2028 || n = 0x2029 ||
  n = 0x202f || n = 0x205f || n = 0x3000

/-- ASCII lower-casing.  Python `str.lower()` is Unicode-aware, but every
pattern, gazetteer name and lexicon term in the source is ASCII, so ASCII
case folding is the behaviour actually exercised. -/
def asciiLower (c : Char) : Char :=
  if 'A' ≤ c && c ≤ 'Z' then Char.ofNat (c.toNat + 32) else c

/-- Word characters for the `\b` regex boundary.  Python `\w` on `str`
patterns also covers non-ASCII letters; all texts and patterns in this
development are ASCII, where `\w` is exactly the set below. -/
def isWordChar (c : Char) : Bool :=
  c.isAlpha || c.isDigit || c = '_'

/-- Accumulator-style worker for Python `str.split()`:
`cur` is the (reversed) token currently being read. -/
def pySplitAux (cur : List Char) : List Char → List (List Char)
  | [] => if cur.isEmpty then [] else [cur.reverse]
  | c :: cs =>
    if isPySpace c then
      if cur.isEmpty then pySplitAux [] cs else cur.reverse :: pySplitAux [] cs
    else pySplitAux (c :: cur) cs

/-- Python `str.split()` with no arguments: split on runs of whitespace,
dropping empty tokens. -/
def pySplit (s : List Char) : List (List Char) :=
  pySplitAux [] s

/-- Python `" ".join(tokens)`. -/
def pyJoin : List (List Char) → List Char
  | [] => []
  | [t] => t
  | t :: t' :: ts => t ++ ' ' :: pyJoin (t' :: ts)

/-- Python `str.strip()` with no arguments: drop leading and trailing
whitespace. -/
def pyStrip (s : List Char) : List Char :=
  ((s.dropWhile isPySpace).reverse.dropWhile isPySpace).reverse

/-- Python `str.rstrip()` with no arguments. -/
def pyRstrip (s : List Char) : List Char :=
  (s.reverse.dropWhile isPySpace).reverse

/-- Python slice `s[a:b]` for `0 ≤ a ≤ b` (the only shapes used by the
source, which clamps with `max(0, _)` and `min(len, _)` before slicing). -/
def pySlice (s : List Char) (a b : Nat) : List Char :=
  (s.drop a).take (b - a)

/-! ## Unicode NFC model

`_normalise_text` calls `unicodedata.normalize("NFC", text)`.  NFC is
modelled by the Unicode canonical algorithm (full canonical decomposition,
canonical reordering of combining marks, then the canonical composition
pass), instantiated with the character data needed by this development:
U+0301 COMBINING ACUTE ACCENT (combining class 230) and the composition
pair U+0061 + U+0301 = U+00E1.  All other code points are treated as
having combining class 0 and no decomposition or composition, which is
accurate for every ASCII character. -/

/-- U+0301 COMBINING ACUTE ACCENT. -/
def combAcute : Char := Char.ofNat 0x301

/-- U+00E1 LATIN SMALL LETTER A WITH ACUTE. -/
def aAcute : Char := Char.ofNat 0xe1

/-- Canonical combining class (from the Unicode character database,
restricted to the code points exercised here). -/
def ccc (c : Char) : Nat :=
  if c = combAcute then 230 else 0

/-- Full canonical decomposition (NFD) of a single code point. -/
def canonFullDecomp (c : Char) : List Char :=
  if c = aAcute then ['a', combAcute] else [c]

/-- Primary canonical composition of a pair of code points. -/
def canonComp (a b : Char) : Option Char :=
  if a = 'a' && b = combAcute then some aAcute else none

/-- Canonical decomposition of a string. -/
def canonDecompose (l : List Char) : List Char :=
  l.flatMap canonFullDecomp

/-- Stable sort of a run of combining marks by combining class. -/
def sortMarks (run : List Char) : List Char :=
  run.insertionSort (fun a b => ccc a ≤ ccc b)

/-- Canonical ordering worker: `run` holds the (reversed) current maximal
run of non-starters (combining class > 0). -/
def canonReorderGo (run : List Char) : List Char → List Char
  | [] => sortMarks run.reverse
  | c :: cs =>
    if ccc c = 0 then sortMarks run.reverse ++ c :: canonReorderGo [] cs
    else canonReorderGo (c :: run) cs

/-- Canonical ordering: stably sort every maximal run of non-starter
characters by combining class. -/
def canonReorder (l : List Char) : List Char :=
  canonReorderGo [] l

/-- Canonical composition worker.  `starter` is the last starter seen and
`marksRev` the (reversed) combining marks accumulated after it.  Since the
input is canonically ordered, a combining character is blocked from the
starter exactly when the most recent accumulated mark has
greater-or-equal combining class; a second starter is blocked by any
intervening mark. -/
def composeGo (starter : Char) (marksRev : List Char) : List Char → List Char
  | [] => starter :: marksRev.reverse
  | d :: ds =>
    if ccc d = 0 then
      match canonComp starter d with
      | some e =>
        if marksRev.isEmpty then composeGo e marksRev ds
        else starter :: marksRev.reverse ++ composeGo d [] ds
      | none => starter :: marksRev.reverse ++ composeGo d [] ds
    else
      match canonComp starter d with
      | some e =>
        if marksRev.head?.all (fun m => ccc m < ccc d) then
          composeGo e marksRev ds
        else composeGo starter (d :: marksRev) ds
      | none => composeGo starter (d :: marksRev) ds

/-- Canonical composition pass over a canonically ordered string. -/
def composePass : List Char → List Char
  | [] => []
  | c :: cs =>
    if ccc c = 0 then composeGo c [] cs
    else c :: composePass cs

/-- Unicode NFC normalisation, `unicodedata.normalize("NFC", _)`. -/
def nfc (l : List Char) : List Char :=
  composePass (canonReorder (canonDecompose l))

/-! ## Text normalisation (`pipeline._normalise_text`) -/

/-- Embedding of `pipeline._normalise_text`:

1. NFC Unicode normalisation;
2. removal of NUL bytes (`text.replace` of NUL with the empty string);
3. whitespace collapse (join of `text.split()` with single spaces);
4. `strip()`. -/
def normaliseText (text : List Char) : List Char :=
  if text.isEmpty then []
  else
    let t1 := nfc text
    let t2 := t1.filter (fun c => c ≠ '\x00')
    let t3 := pyJoin (pySplit t2)
    pyStrip t3

/-- String-level wrapper for `_normalise_text`. -/
def normaliseStr (s : String) : String :=
  String.mk (normaliseText s.data)

/-- An ASCII code point (U+0000..U+007F).  In the real Unicode character
database every ASCII code point has combining class 0, no canonical
decomposition, and is never the second element of a canonical
composition pair, so NFC is the identity on ASCII strings; the NFC
model above agrees with the UCD on this whole range, which makes the
ASCII-restricted idempotence statement below a statement about the
program and not an artefact of the truncated model data. -/
def isAsciiChar (c : Char) : Bool :=
  decide (c.toNat ≤ 0x7f)

/-- Unicode Cc (control) code points: U+0000..U+001F and U+007F..U+009F. -/
def isCcControl (c : Char) : Bool :=
  c.toNat ≤ 0x1f || (0x7f ≤ c.toNat && c.toNat ≤ 0x9f)

/-! ## Regex-style matching primitives

The source compiles patterns of two shapes only: a literal phrase matched
as a substring, and a word with regex word boundaries on both sides, both
case-insensitively.  `pyFinditer` reproduces `re.finditer` for such
patterns: matches are found left to right and are non-overlapping (the
scan resumes after the end of each match). -/

/-- Case-insensitive literal match of `pat` (given in lower case) at
position `i` of `text`. -/
def matchAt (pat text : List Char) (i : Nat) : Bool :=
  decide (((text.drop i).take pat.length).map asciiLower = pat)

/-- Regex `\b` holds before position `i` (for a pattern starting with a
word character). -/
def boundaryBefore (text : List Char) (i : Nat) : Bool :=
  if i = 0 then true else !(isWordChar (text.getD (i - 1) ' '))

/-- Regex `\b` holds after position `j` (for a pattern ending with a word
character); past the end of the text the default ' ' is not a word
character. -/
def boundaryAfter (text : List Char) (j : Nat) : Bool :=
  !(isWordChar (text.getD j ' '))

/-- One candidate position of the `re.finditer` scan; `fuel` bounds the
recursion (every step advances the position by at least one). -/
def fiAux (requireB : Bool) (pat text : List Char) : Nat → Nat → List (Nat × Nat)
  | 0, _ => []
  | fuel + 1, i =>
    if i > text.length then []
    else if matchAt pat text i &&
        (!requireB || (boundaryBefore text i && boundaryAfter text (i + pat.length))) then
      (i, i + pat.length) :: fiAux requireB pat text fuel (i + pat.length)
    else fiAux requireB pat text fuel (i + 1)

/-- All matches of a literal (or word-bounded) pattern, as `(start, end)`
spans, in `re.finditer` order. -/
def pyFinditer (requireB : Bool) (pat text : List Char) : List (Nat × Nat) :=
  fiAux requireB pat text (text.length + 2) 0

/-! ## Sentiment scorer (`nlp/sentiment.py`)

The VADER engine (`vaderSentiment.SentimentIntensityAnalyzer`) is an
external library; its output for the analysed text is modelled as an
input parameter of type `VaderScores`.  Weights are exact rationals. -/

/-- `CLIMATE_NEGATIVE_LEXICON`, in source order. -/
def climateNegativeLexicon : List (String × ℚ) := [
  ("flooding", -0.15), ("flood", -0.15), ("floods", -0.15),
  ("disaster", -0.20), ("disasters", -0.20), ("crisis", -0.15),
  ("crises", -0.15), ("catastrophe", -0.20), ("catastrophic", -0.20),
  ("devastation", -0.20), ("devastated", -0.18), ("heatwave", -0.12),
  ("heatwaves", -0.12), ("drought", -0.15), ("droughts", -0.15),
  ("wildfire", -0.15), ("wildfires", -0.15), ("extinction", -0.20),
  ("collapse", -0.18), ("irreversible", -0.15), ("tipping point", -0.15),
  ("sea level rise", -0.12), ("toxic", -0.12), ("pollution", -0.12),
  ("polluted", -0.12), ("contaminated", -0.14), ("deforestation", -0.14),
  ("emission", -0.08), ("emissions", -0.08), ("carbon footprint", -0.06),
  ("ocean acidification", -0.14), ("melting", -0.10), ("eroding", -0.10),
  ("erosion", -0.10), ("displacement", -0.12), ("famine", -0.18),
  ("starvation", -0.18), ("uninhabitable", -0.18)]

/-- `CLIMATE_POSITIVE_LEXICON`, in source order. -/
def climatePositiveLexicon : List (String × ℚ) := [
  ("renewable", 0.12), ("renewables", 0.12), ("solution", 0.12),
  ("solutions", 0.12), ("community action", 0.15), ("sustainability", 0.12),
  ("sustainable", 0.12), ("green energy", 0.14), ("clean energy", 0.14),
  ("solar power", 0.12), ("solar panels", 0.12), ("wind power", 0.12),
  ("wind farm", 0.12), ("heat pump", 0.10), ("heat pumps", 0.10),
  ("insulation", 0.08), ("retrofit", 0.08), ("electric vehicle", 0.10),
  ("electric vehicles", 0.10), ("net zero", 0.10), ("carbon neutral", 0.12),
  ("biodiversity", 0.08), ("rewilding", 0.12), ("reforestation", 0.14),
  ("restoration", 0.10), ("adaptation", 0.08), ("resilience", 0.10),
  ("resilient", 0.10), ("regenerative", 0.12), ("recycling", 0.08),
  ("composting", 0.08), ("conservation", 0.10), ("transition", 0.06),
  ("innovation", 0.10), ("breakthrough", 0.12), ("progress", 0.10),
  ("community energy", 0.14), ("local food", 0.08), ("volunteering", 0.10),
  ("collective action", 0.14), ("activism", 0.06), ("empowered", 0.10),
  ("hopeful", 0.10)]

/-- All climate terms: negative then positive lexicon, stably sorted by
term length, longest first (`all_terms.sort(key=len, reverse=True)`;
`List.insertionSort` with this relation is the same stable descending
sort). -/
def allClimateTerms : List (String × ℚ) :=
  (climateNegativeLexicon ++ climatePositiveLexicon).insertionSort
    (fun a b => b.1.length ≤ a.1.length)

/-- Matches of one climate term: substring matching for multi-word
phrases, word-boundary matching for single words. -/
def climTermMatches (textLower : List Char) (term : List Char) : List (Nat × Nat) :=
  pyFinditer (!(term.contains ' ')) term textLower

/-- The `_overlaps` helper: does the span `(s, e)` overlap one of the
already matched spans? -/
def overlapsSpans (spans : List (Nat × Nat)) (s e : Nat) : Bool :=
  spans.any (fun p => decide (s < p.2) && decide (e > p.1))

/-- Fold one term's matches into `(matched_spans, adjustment)`. -/
def climApplyMatches (w : ℚ) (st : List (Nat × Nat) × ℚ) (ms : List (Nat × Nat)) :
    List (Nat × Nat) × ℚ :=
  ms.foldl (fun st m =>
    if overlapsSpans st.1 m.1 m.2 then st else (st.1 ++ [m], st.2 + w)) st

/-- Process the sorted term list, accumulating matched spans and the raw
adjustment. -/
def climGo (textLower : List Char) : List (String × ℚ) → List (Nat × Nat) × ℚ →
    List (Nat × Nat) × ℚ
  | [], st => st
  | (term, w) :: rest, st =>
    climGo textLower rest (climApplyMatches w st (climTermMatches textLower term.data))

/-- Embedding of `SentimentAnalyzer._compute_climate_adjustment`: scan the
lowercased text for climate terms (longest first, overlapping spans
excluded), sum their modifiers, clamp to [-0.5, 0.5]. -/
def computeClimateAdjustment (text : List Char) : ℚ :=
  let textLower := text.map asciiLower
  let adjustment := (climGo textLower allClimateTerms ([], 0)).2
  max (-0.5) (min 0.5 adjustment)

/-- Python `round(x, 4)`.  CPython rounds half to even on binary floats;
this model rounds half away from the nearest lower integer.  Both
round-to-nearest conventions differ only on exact ties and satisfy
`|round4 q - q| ≤ 1/20000`, which is all any claim here relies on. -/
def round4 (q : ℚ) : ℚ :=
  (round (q * 10000) : ℤ) / 10000

/-- Output of `SentimentIntensityAnalyzer.polarity_scores` (external
VADER library), modelled as data. -/
structure VaderScores where
  compound : ℚ
  pos : ℚ
  neg : ℚ
  neu : ℚ
deriving DecidableEq

/-- Embedding of `SentimentAnalyzer._compute_confidence`. -/
def computeConfidence (v : VaderScores) (adjustment : ℚ) : ℚ :=
  let polarityStrength := |v.compound|
  let agreement : ℚ :=
    if v.compound ≠ 0 ∧ adjustment ≠ 0 then
      if decide (0 < v.compound) = decide (0 < adjustment) then 1 else 0.8
    else 0.9
  let neutralPenalty : ℚ := 1 - v.neu * 0.3
  let rawConfidence := polarityStrength * agreement * neutralPenalty
  round4 (max 0.3 (min 1 (rawConfidence + 0.3)))

/-- Embedding of `_label_from_score`. -/
def labelFromScore (score : ℚ) : String :=
  if score < -0.6 then "VERY_NEGATIVE"
  else if score < -0.2 then "NEGATIVE"
  else if score ≤ 0.2 then "NEUTRAL"
  else if score ≤ 0.6 then "POSITIVE"
  else "VERY_POSITIVE"

/-- Result of `SentimentAnalyzer.analyze`. -/
structure SentimentOutput where
  overallSentiment : ℚ
  sentimentLabel : String
  confidence : ℚ
deriving DecidableEq

/-- Embedding of `SentimentAnalyzer.analyze`: empty or whitespace-only
text gets the neutral default; otherwise the VADER compound score plus
the clamped climate adjustment, clamped to [-1, 1] and rounded to 4
decimal places, with label and confidence derived from it. -/
def sentimentAnalyze (v : VaderScores) (text : List Char) : SentimentOutput :=
  if text.isEmpty || (pyStrip text).isEmpty then
    { overallSentiment := 0, sentimentLabel := "NEUTRAL", confidence := 0.3 }
  else
    let climateAdj := computeClimateAdjustment text
    let adjusted := round4 (max (-1) (min 1 (v.compound + climateAdj)))
    { overallSentiment := adjusted
      sentimentLabel := labelFromScore adjusted
      confidence := computeConfidence v climateAdj }

/-! ## Discourse classifier (`nlp/classifier.py`)

`_score_text` adds `weight * (count ** 0.5)` per matched keyword.  The
exponentiation is an irrational-valued float square root, which has no
exact rational embedding; it is modelled by a parameter
`root : Nat → ℚ`, constrained where needed to be positive on positive
counts (as the real square root is).  Nothing else in the classifier
depends on its value. -/

/-- `CATEGORY_KEYWORDS`, categories and keyword/weight pairs in source
order (including the duplicated ("rally", 1.1) entry of
COMMUNITY_ACTION). -/
def categoryKeywordTable : List (String × List (String × ℚ)) := [
  ("PRACTICAL_ADAPTATION", [
    ("installed", 1.2), ("switched to", 1.5), ("we now use", 1.5),
    ("heat pump", 1.4), ("heat pumps", 1.4), ("insulation", 1.2),
    ("solar panels", 1.4), ("solar panel", 1.4), ("changed habits", 1.3),
    ("adapted", 1.0), ("practical", 0.8), ("diy", 0.7), ("retrofit", 1.2),
    ("retrofitting", 1.2), ("double glazing", 1.2), ("loft insulation", 1.3),
    ("cavity wall", 1.2), ("draught proofing", 1.2), ("composting", 1.0),
    ("rainwater harvesting", 1.3), ("energy saving", 1.2), ("smart meter", 1.0),
    ("led bulbs", 1.0), ("electric vehicle", 1.2), ("cycling", 0.8),
    ("growing food", 1.1), ("allotment", 0.9), ("reduced", 0.6),
    ("cut down", 0.7), ("lowered", 0.6), ("upgraded", 0.9),
    ("implemented", 0.8), ("set up", 0.6), ("built", 0.5)]),
  ("EMOTIONAL_RESPONSE", [
    ("worried", 1.2), ("scared", 1.3), ("anxious", 1.3), ("hopeful", 1.0),
    ("frustrated", 1.2), ("angry", 1.2), ("sad", 1.0), ("grief", 1.4),
    ("overwhelmed", 1.3), ("feel", 0.6), ("feeling", 0.7), ("terrified", 1.4),
    ("depressed", 1.3), ("despair", 1.4), ("helpless", 1.3), ("hopeless", 1.3),
    ("eco-anxiety", 1.6), ("eco anxiety", 1.6), ("climate grief", 1.6),
    ("panic", 1.1), ("dread", 1.2), ("upset", 1.0), ("rage", 1.2),
    ("fury", 1.2), ("heartbroken", 1.3), ("tearful", 1.1), ("sleepless", 1.0),
    ("nightmare", 1.0), ("stress", 1.0), ("stressed", 1.1), ("crying", 1.1),
    ("emotional", 0.8), ("mood", 0.6), ("mental health", 1.2)]),
  ("POLICY_DISCUSSION", [
    ("government", 1.2), ("policy", 1.3), ("regulation", 1.3),
    ("regulations", 1.3), ("tax", 1.0), ("subsidy", 1.2), ("subsidies", 1.2),
    ("legislation", 1.4), ("parliament", 1.3), ("council", 1.0),
    ("mandate", 1.2), ("ban", 0.8), ("net zero", 1.3), ("carbon tax", 1.5),
    ("minister", 1.1), ("mp", 0.8), ("mps", 0.8), ("secretary of state", 1.2),
    ("green paper", 1.3), ("white paper", 1.3), ("consultation", 1.0),
    ("planning permission", 1.0), ("building regulations", 1.3),
    ("target", 0.7), ("targets", 0.7), ("strategy", 0.8), ("budget", 0.8),
    ("grant", 0.7), ("grants", 0.7), ("act", 0.5), ("law", 0.8),
    ("laws", 0.8), ("vote", 0.7), ("election", 0.7), ("manifesto", 1.0),
    ("devolution", 1.0)]),
  ("COMMUNITY_ACTION", [
    ("community", 1.0), ("group", 0.6), ("volunteer", 1.2),
    ("volunteering", 1.3), ("volunteers", 1.2), ("protest", 1.3),
    ("protests", 1.3), ("campaign", 1.2), ("campaigning", 1.2),
    ("together", 0.7), ("neighbourhood", 1.0), ("local action", 1.5),
    ("collective", 1.0), ("grassroots", 1.4), ("petition", 1.3),
    ("march", 0.8), ("rally", 1.1), ("rally", 1.1), ("mutual aid", 1.4),
    ("cooperative", 1.1), ("co-op", 1.0), ("organising", 1.0),
    ("organizing", 1.0), ("fundraising", 1.0), ("charity", 0.8),
    ("parish", 0.8), ("town hall", 1.0), ("citizens assembly", 1.4),
    ("transition town", 1.5), ("litter pick", 1.1), ("tree planting", 1.2),
    ("community garden", 1.4), ("repair cafe", 1.4), ("sharing", 0.5),
    ("joining", 0.6)]),
  ("DENIAL_DISMISSAL", [
    ("hoax", 1.8), ("natural cycle", 1.8), ("natural cycles", 1.8),
    ("not real", 1.6), ("exaggerated", 1.5), ("scam", 1.7),
    ("waste of money", 1.6), ("alarmist", 1.6), ("not proven", 1.5),
    ("hysteria", 1.5), ("conspiracy", 1.6), ("made up", 1.5),
    ("nonsense", 1.3), ("rubbish", 1.1), ("myth", 1.4), ("propaganda", 1.5),
    ("fear mongering", 1.5), ("fearmongering", 1.5), ("overblown", 1.4),
    ("nothing to worry", 1.4), ("always been changing", 1.5), ("sun", 0.3),
    ("solar activity", 1.3), ("fake", 1.4), ("fraud", 1.5),
    ("junk science", 1.7), ("no evidence", 1.4), ("don\x27t believe", 1.2),
    ("scare tactics", 1.5),
    ("virtue signalling", 1.3), ("virtue signaling", 1.3), ("woke", 0.8),
    ("nanny state", 1.3)])]

/-- Count of `pat.findall(text)` matches: word-boundary matching for
single words, substring matching for multi-word phrases, both
case-insensitive. -/
def countKeyword (text : List Char) (kw : List Char) : Nat :=
  (pyFinditer (!(kw.contains ' ')) kw text).length

/-- Raw weighted score of one category:
`sum(weight * count ** 0.5 for matched keywords)`. -/
def rawScore (root : Nat → ℚ) (text : List Char) (kws : List (String × ℚ)) : ℚ :=
  kws.foldl (fun acc kw =>
    let count := countKeyword text kw.1.data
    if count > 0 then acc + kw.2 * root count else acc) 0

/-- Embedding of `DiscourseClassifier._score_text`. -/
def scoreText (root : Nat → ℚ) (text : List Char) : List (String × ℚ) :=
  categoryKeywordTable.map (fun c => (c.1, rawScore root text c.2))

/-- Embedding of `DiscourseClassifier._normalise`: divide by the total
(rounding each share to 4 decimal places), or distribute equally if the
total is zero. -/
def normaliseScores (scores : List (String × ℚ)) : List (String × ℚ) :=
  let total := (scores.map Prod.snd).sum
  if total = 0 then
    scores.map (fun c => (c.1, round4 (1 / (scores.length : ℚ))))
  else
    scores.map (fun c => (c.1, round4 (c.2 / total)))

/-- Python `max(d, key=d.get)` over the normalised score dict: the first
key attaining the maximal value, in iteration order. -/
def argmaxFirst (l : List (String × ℚ)) : String :=
  match l with
  | [] => ""
  | p :: ps => (ps.foldl (fun best q => if q.2 > best.2 then q else best) p).1

/-- Result of `DiscourseClassifier.classify`. -/
structure Classification where
  classificationType : String
  confidence : ℚ
  allScores : List (String × ℚ)
deriving DecidableEq

/-- Embedding of `DiscourseClassifier.classify`. -/
def classifyText (root : Nat → ℚ) (text : List Char) : Classification :=
  if text.isEmpty || (pyStrip text).isEmpty then
    { classificationType := (categoryKeywordTable.map Prod.fst).headD ""
      confidence := round4 (1 / (categoryKeywordTable.length : ℚ))
      allScores := normaliseScores (categoryKeywordTable.map (fun c => (c.1, 0))) }
  else
    let normalised := normaliseScores (scoreText root text)
    let best := argmaxFirst normalised
    { classificationType := best
      confidence := ((normalised.lookup best).getD 0)
      allScores := normalised }

/-! ## Pipeline gazetteer matcher (`collectors/locations.py`) -/

/-- The `Region` enum of `app/models/models.py`. -/
inductive Region where
  | LONDON
  | SOUTH_EAST
  | SOUTH_WEST
  | EAST
  | WEST_MIDLANDS
  | EAST_MIDLANDS
  | NORTH_WEST
  | NORTH_EAST
  | YORKSHIRE
  | SCOTLAND
  | WALES
  | NORTHERN_IRELAND
deriving DecidableEq

/-- The string value of each `Region` member (the enum is a `str` enum
whose values equal the member names). -/
def regionValue : Region → String
  | Region.LONDON => "LONDON"
  | Region.SOUTH_EAST => "SOUTH_EAST"
  | Region.SOUTH_WEST => "SOUTH_WEST"
  | Region.EAST => "EAST"
  | Region.WEST_MIDLANDS => "WEST_MIDLANDS"
  | Region.EAST_MIDLANDS => "EAST_MIDLANDS"
  | Region.NORTH_WEST => "NORTH_WEST"
  | Region.NORTH_EAST => "NORTH_EAST"
  | Region.YORKSHIRE => "YORKSHIRE"
  | Region.SCOTLAND => "SCOTLAND"
  | Region.WALES => "WALES"
  | Region.NORTHERN_IRELAND => "NORTHERN_IRELAND"

/-- `UK_LOCATIONS` of `collectors/locations.py`, in source (dict
insertion) order. -/
def ukLocationsPipeline : List (String × Region) := [
  ("London", Region.LONDON), ("Westminster", Region.LONDON),
  ("Camden", Region.LONDON), ("Greenwich", Region.LONDON),
  ("Hackney", Region.LONDON), ("Islington", Region.LONDON),
  ("Tower Hamlets", Region.LONDON), ("Croydon", Region.LONDON),
  ("Brighton", Region.SOUTH_EAST), ("Oxford", Region.SOUTH_EAST),
  ("Canterbury", Region.SOUTH_EAST), ("Southampton", Region.SOUTH_EAST),
  ("Portsmouth", Region.SOUTH_EAST), ("Reading", Region.SOUTH_EAST),
  ("Guildford", Region.SOUTH_EAST), ("Milton Keynes", Region.SOUTH_EAST),
  ("Luton", Region.SOUTH_EAST), ("Slough", Region.SOUTH_EAST),
  ("Maidstone", Region.SOUTH_EAST), ("Hastings", Region.SOUTH_EAST),
  ("Bristol", Region.SOUTH_WEST), ("Bath", Region.SOUTH_WEST),
  ("Plymouth", Region.SOUTH_WEST), ("Exeter", Region.SOUTH_WEST),
  ("Gloucester", Region.SOUTH_WEST), ("Bournemouth", Region.SOUTH_WEST),
  ("Swindon", Region.SOUTH_WEST), ("Cheltenham", Region.SOUTH_WEST),
  ("Taunton", Region.SOUTH_WEST), ("Torquay", Region.SOUTH_WEST),
  ("Cambridge", Region.EAST), ("Norwich", Region.EAST),
  ("Ipswich", Region.EAST), ("Colchester", Region.EAST),
  ("Peterborough", Region.EAST), ("Chelmsford", Region.EAST),
  ("Southend-on-Sea", Region.EAST),
  ("Birmingham", Region.WEST_MIDLANDS), ("Coventry", Region.WEST_MIDLANDS),
  ("Wolverhampton", Region.WEST_MIDLANDS),
  ("Stoke-on-Trent", Region.WEST_MIDLANDS),
  ("Worcester", Region.WEST_MIDLANDS), ("Hereford", Region.WEST_MIDLANDS),
  ("Shrewsbury", Region.WEST_MIDLANDS), ("Walsall", Region.WEST_MIDLANDS),
  ("Dudley", Region.WEST_MIDLANDS),
  ("Nottingham", Region.EAST_MIDLANDS), ("Leicester", Region.EAST_MIDLANDS),
  ("Derby", Region.EAST_MIDLANDS), ("Lincoln", Region.EAST_MIDLANDS),
  ("Northampton", Region.EAST_MIDLANDS), ("Mansfield", Region.EAST_MIDLANDS),
  ("Manchester", Region.NORTH_WEST), ("Liverpool", Region.NORTH_WEST),
  ("Chester", Region.NORTH_WEST), ("Preston", Region.NORTH_WEST),
  ("Blackpool", Region.NORTH_WEST), ("Bolton", Region.NORTH_WEST),
  ("Carlisle", Region.NORTH_WEST), ("Lancaster", Region.NORTH_WEST),
  ("Warrington", Region.NORTH_WEST), ("Wigan", Region.NORTH_WEST),
  ("Stockport", Region.NORTH_WEST), ("Burnley", Region.NORTH_WEST),
  ("Newcastle", Region.NORTH_EAST), ("Sunderland", Region.NORTH_EAST),
  ("Durham", Region.NORTH_EAST), ("Middlesbrough", Region.NORTH_EAST),
  ("Darlington", Region.NORTH_EAST), ("Hartlepool", Region.NORTH_EAST),
  ("Gateshead", Region.NORTH_EAST),
  ("Leeds", Region.YORKSHIRE), ("Sheffield", Region.YORKSHIRE),
  ("York", Region.YORKSHIRE), ("Bradford", Region.YORKSHIRE),
  ("Hull", Region.YORKSHIRE), ("Huddersfield", Region.YORKSHIRE),
  ("Doncaster", Region.YORKSHIRE), ("Wakefield", Region.YORKSHIRE),
  ("Harrogate", Region.YORKSHIRE), ("Scarborough", Region.YORKSHIRE),
  ("Edinburgh", Region.SCOTLAND), ("Glasgow", Region.SCOTLAND),
  ("Aberdeen", Region.SCOTLAND), ("Dundee", Region.SCOTLAND),
  ("Inverness", Region.SCOTLAND), ("Stirling", Region.SCOTLAND),
  ("Perth", Region.SCOTLAND), ("St Andrews", Region.SCOTLAND),
  ("Fort William", Region.SCOTLAND), ("Dumfries", Region.SCOTLAND),
  ("Cardiff", Region.WALES), ("Swansea", Region.WALES),
  ("Newport", Region.WALES), ("Bangor", Region.WALES),
  ("Aberystwyth", Region.WALES), ("Wrexham", Region.WALES),
  ("Llanelli", Region.WALES), ("Carmarthen", Region.WALES),
  ("Belfast", Region.NORTHERN_IRELAND), ("Derry", Region.NORTHERN_IRELAND),
  ("Londonderry", Region.NORTHERN_IRELAND),
  ("Lisburn", Region.NORTHERN_IRELAND), ("Newry", Region.NORTHERN_IRELAND),
  ("Armagh", Region.NORTHERN_IRELAND),
  ("Banbridge", Region.NORTHERN_IRELAND)]

/-- `_AMBIGUOUS_NAMES` of `collectors/locations.py`. -/
def ambiguousNamesPipeline : List String := [
  "reading", "bath", "derby", "hull", "chester", "lancaster", "durham",
  "lincoln", "bolton", "york", "preston", "newport", "bangor", "perth",
  "stirling", "shrewsbury", "wigan"]

/-- `_GEO_CONTEXT_WORDS` of `collectors/locations.py` (a set; only
membership of substrings in a window is ever tested, so the order below
is immaterial). -/
def geoContextWords : List String := [
  "city", "town", "council", "borough", "county", "area", "region",
  "resident", "residents", "constituency", "mp", "mps", "mayor",
  "station", "airport", "university", "hospital", "school",
  "flooding", "flood", "climate",
  "road", "street", "high street", "centre", "center",
  "north", "south", "east", "west", "near", "based in", "living in"]

/-- `_CONTEXT_WINDOW`. -/
def contextWindow : Nat := 80

/-- `_LOCATION_NAMES_LOWER`: lower-cased name to canonical name. -/
def locationNamesLower : List (String × String) :=
  ukLocationsPipeline.map (fun p => (String.mk (p.1.data.map asciiLower), p.1))

/-- `_SORTED_NAMES`: the lower-cased names sorted longest first
(`sorted(keys, key=len, reverse=True)`, a stable descending sort). -/
def sortedNames : List String :=
  (locationNamesLower.map Prod.fst).insertionSort (fun a b => b.length ≤ a.length)

/-- First alternative of the combined `\b(name1|name2|...)\b` pattern
matching at position `i` (alternatives are tried in list order, each with
both word boundaries, exactly as the regex engine backtracks through the
alternation). -/
def tryMatchNames (names : List (List Char)) (text : List Char) (i : Nat) :
    Option (List Char) :=
  names.find? (fun nm =>
    matchAt nm text i && boundaryBefore text i && boundaryAfter text (i + nm.length))

/-- The `finditer` scan of the combined location pattern: leftmost
matches, non-overlapping, resuming after each match end. -/
def scanNames (names : List (List Char)) (text : List Char) :
    Nat → Nat → List (Nat × List Char)
  | 0, _ => []
  | fuel + 1, i =>
    if i > text.length then []
    else
      match tryMatchNames names text i with
      | some nm => (i, nm) :: scanNames names text fuel (i + nm.length)
      | none => scanNames names text fuel (i + 1)

/-- All matches of `_LOCATION_PATTERN.finditer(text)` as
`(start, matched-lower-cased-name)` pairs. -/
def locationMatches (text : List Char) : List (Nat × List Char) :=
  scanNames (sortedNames.map String.data) text (text.length + 2) 0

/-- Substring occurrence test (`ctx in window`) at one position. -/
def substrAt (pat s : List Char) (i : Nat) : Bool :=
  decide ((s.drop i).take pat.length = pat)

/-- Python `pat in s` substring containment. -/
def containsSub (pat s : List Char) : Bool :=
  (List.range (s.length + 1)).any (fun i => substrAt pat s i)

/-- Embedding of `_has_geo_context`: some geographic context word occurs
as a substring of the lower-cased window of 80 characters around the
match. -/
def hasGeoContext (text : List Char) (mstart mend : Nat) : Bool :=
  let ws := mstart - contextWindow
  let we := min text.length (mend + contextWindow)
  let window := (pySlice text ws we).map asciiLower
  geoContextWords.any (fun ctx => containsSub ctx.data window)

/-- Embedding of `_is_new_york`: the four characters before the match,
lower-cased and right-stripped, end with "new". -/
def isNewYorkPrefix (text : List Char) (mstart mend : Nat) : Bool :=
  let pfx := pyRstrip ((pySlice text (mstart - 4) mstart).map asciiLower)
  decide (pfx.reverse.take 3 = ['w', 'e', 'n'])

/-- A `find_locations` result entry (`{name, region}`). -/
structure LocMatch where
  name : String
  region : String
deriving DecidableEq

/-- The body of the `find_locations` match loop, processing one regex
match against the `(seen, results)` state. -/
def flStep (text : List Char) (st : List String × List LocMatch)
    (m : Nat × List Char) : List String × List LocMatch :=
  let matchedLower := String.mk m.2
  if matchedLower ∈ st.1 then st
  else if matchedLower = "york" && isNewYorkPrefix text m.1 (m.1 + m.2.length) then st
  else
    let canonical := (locationNamesLower.lookup matchedLower).getD ""
    if ambiguousNamesPipeline.contains matchedLower
        && !(hasGeoContext text m.1 (m.1 + m.2.length)) then st
    else
      (matchedLower :: st.1,
        st.2 ++ [⟨canonical,
          regionValue ((ukLocationsPipeline.lookup canonical).getD Region.LONDON)⟩])

/-- Embedding of `find_locations` of `collectors/locations.py`. -/
def findLocations (text : List Char) : List LocMatch :=
  if text.isEmpty then []
  else ((locationMatches text).foldl (flStep text) ([], [])).2

/-! ## Analysis gazetteer matcher (`nlp/geographic.py`) -/

/-- `UK_LOCATIONS` of `nlp/geographic.py`: name to (latitude, longitude,
region), in source order. -/
def ukGazetteer : List (String × ℚ × ℚ × String) := [
  ("London", 51.5074, -0.1278, "London"),
  ("Manchester", 53.4808, -2.2426, "North West"),
  ("Birmingham", 52.4862, -1.8904, "West Midlands"),
  ("Liverpool", 53.4084, -2.9916, "North West"),
  ("Leeds", 53.8008, -1.5491, "Yorkshire and the Humber"),
  ("Sheffield", 53.3811, -1.4701, "Yorkshire and the Humber"),
  ("Bristol", 51.4545, -2.5879, "South West"),
  ("Newcastle", 54.9783, -1.6178, "North East"),
  ("Nottingham", 52.9548, -1.1581, "East Midlands"),
  ("Leicester", 52.6369, -1.1398, "East Midlands"),
  ("Coventry", 52.4068, -1.5197, "West Midlands"),
  ("Bradford", 53.7960, -1.7594, "Yorkshire and the Humber"),
  ("Plymouth", 50.3755, -4.1427, "South West"),
  ("Wolverhampton", 52.5870, -2.1270, "West Midlands"),
  ("Southampton", 50.9097, -1.4044, "South East"),
  ("Portsmouth", 50.8198, -1.0880, "South East"),
  ("Brighton", 50.8225, -0.1372, "South East"),
  ("Oxford", 51.7520, -1.2577, "South East"),
  ("Cambridge", 52.2053, 0.1218, "East of England"),
  ("Norwich", 52.6309, 1.2974, "East of England"),
  ("York", 53.9591, -1.0815, "Yorkshire and the Humber"),
  ("Bath", 51.3811, -2.3590, "South West"),
  ("Exeter", 50.7184, -3.5339, "South West"),
  ("Sunderland", 54.9069, -1.3838, "North East"),
  ("Derby", 52.9225, -1.4746, "East Midlands"),
  ("Stoke-on-Trent", 53.0027, -2.1794, "West Midlands"),
  ("Hull", 53.7676, -0.3274, "Yorkshire and the Humber"),
  ("Middlesbrough", 54.5742, -1.2350, "North East"),
  ("Blackpool", 53.8175, -3.0357, "North West"),
  ("Bolton", 53.5785, -2.4299, "North West"),
  ("Ipswich", 52.0567, 1.1482, "East of England"),
  ("Peterborough", 52.5695, -0.2405, "East of England"),
  ("Luton", 51.8787, -0.4200, "East of England"),
  ("Milton Keynes", 52.0406, -0.7594, "South East"),
  ("Swindon", 51.5558, -1.7797, "South West"),
  ("Cheltenham", 51.8994, -2.0783, "South West"),
  ("Gloucester", 51.8642, -2.2382, "South West"),
  ("Bournemouth", 50.7192, -1.8808, "South West"),
  ("Northampton", 52.2405, -0.9027, "East Midlands"),
  ("Reading", 51.4543, -0.9781, "South East"),
  ("Canterbury", 51.2802, 1.0789, "South East"),
  ("Chester", 53.1930, -2.8931, "North West"),
  ("Lincoln", 53.2307, -0.5406, "East Midlands"),
  ("Carlisle", 54.8925, -2.9329, "North West"),
  ("Durham", 54.7761, -1.5733, "North East"),
  ("Lancaster", 54.0466, -2.8007, "North West"),
  ("Worcester", 52.1936, -2.2216, "West Midlands"),
  ("Hereford", 52.0565, -2.7160, "West Midlands"),
  ("Salisbury", 51.0688, -1.7945, "South West"),
  ("Truro", 50.2632, -5.0510, "South West"),
  ("Colchester", 51.8959, 0.8919, "East of England"),
  ("Wakefield", 53.6833, -1.4977, "Yorkshire and the Humber"),
  ("Doncaster", 53.5228, -1.1285, "Yorkshire and the Humber"),
  ("Barnsley", 53.5529, -1.4793, "Yorkshire and the Humber"),
  ("Edinburgh", 55.9533, -3.1883, "Scotland"),
  ("Glasgow", 55.8642, -4.2518, "Scotland"),
  ("Aberdeen", 57.1497, -2.0943, "Scotland"),
  ("Dundee", 56.4620, -2.9707, "Scotland"),
  ("Inverness", 57.4778, -4.2247, "Scotland"),
  ("Stirling", 56.1166, -3.9369, "Scotland"),
  ("Perth", 56.3950, -3.4308, "Scotland"),
  ("St Andrews", 56.3398, -2.7967, "Scotland"),
  ("Fort William", 56.8198, -5.1052, "Scotland"),
  ("Cardiff", 51.4816, -3.1791, "Wales"),
  ("Swansea", 51.6214, -3.9436, "Wales"),
  ("Newport", 51.5842, -2.9977, "Wales"),
  ("Wrexham", 53.0469, -2.9925, "Wales"),
  ("Bangor", 53.2274, -4.1293, "Wales"),
  ("Aberystwyth", 52.4153, -4.0829, "Wales"),
  ("Carmarthen", 51.8576, -4.3121, "Wales"),
  ("Llanelli", 51.6840, -4.1629, "Wales"),
  ("Belfast", 54.5973, -5.9301, "Northern Ireland"),
  ("Derry", 54.9966, -7.3086, "Northern Ireland"),
  ("Londonderry", 54.9966, -7.3086, "Northern Ireland"),
  ("Lisburn", 54.5162, -6.0580, "Northern Ireland"),
  ("Newry", 54.1751, -6.3402, "Northern Ireland"),
  ("Armagh", 54.3503, -6.6528, "Northern Ireland"),
  ("Enniskillen", 54.3448, -7.6326, "Northern Ireland")]

/-- `AMBIGUOUS_NAMES` of `nlp/geographic.py`. -/
def geoAmbiguousNames : List String := [
  "Reading", "Bath", "Deal", "Hull", "March", "Wells", "Ware",
  "Chester", "Lancaster", "Derby", "Durham", "Lincoln", "York",
  "Bolton", "Newport", "Bangor", "Perth", "Armagh"]

/-- The preposition alternatives of `_LOCATION_CONTEXT_RE`. -/
def contextPreps : List String := [
  "in", "from", "across", "around", "near", "outside", "leaving",
  "visiting", "of", "to", "at", "towards", "via"]

/-- The determiner/particle alternatives of `_READING_VERB_RE`. -/
def readingVerbWords : List String := [
  "a", "the", "this", "that", "my", "his", "her", "their", "some",
  "about", "up", "through"]

/-- `_LOCATION_CONTEXT_RE.search`: somewhere in `s`, a word-boundary
preposition followed by at least one whitespace character
(`\b(?:in|from|...)\s+`, case-insensitive). -/
def hasPrepContext (s : List Char) : Bool :=
  (List.range (s.length + 1)).any (fun i =>
    contextPreps.any (fun p =>
      boundaryBefore s i && matchAt p.data s i &&
        isPySpace (s.getD (i + p.data.length) 'x')))

/-- Length of the whitespace run of `s` starting at `j`. -/
def wsRunLen (s : List Char) (j : Nat) : Nat :=
  ((s.drop j).takeWhile isPySpace).length

/-- `_READING_VERB_RE.search`: "reading" on a word boundary, one or more
whitespace characters, then one of the verb-context words on a word
boundary.  (The greedy `\s+` consumes the whole whitespace run; no
shorter run can be followed by a letter, so checking the maximal run is
exact.) -/
def readingVerbSearch (s : List Char) : Bool :=
  (List.range (s.length + 1)).any (fun i =>
    boundaryBefore s i && matchAt (("reading").data) s i &&
      (let j := i + 7
       let k := wsRunLen s j
       decide (1 ≤ k) && readingVerbWords.any (fun w =>
         matchAt w.data s (j + k) && boundaryAfter s (j + k + w.data.length))))

/-- ASCII lower-case letter (Python `str.islower()` on the first matched
character; all gazetteer matches are ASCII letters). -/
def isLowerAlpha (c : Char) : Bool :=
  'a' ≤ c && c ≤ 'z'

/-- The generic ambiguous-name part of `GeoExtractor._is_false_positive`:
require a preposition immediately before the match, or a capitalised
mid-sentence occurrence. -/
def geoAmbiguousPart (name : String) (text : List Char) (mstart mend : Nat) : Bool :=
  if geoAmbiguousNames.contains name then
    let preceding := pySlice text (mstart - 20) mstart
    if hasPrepContext preceding then false
    else if mstart = 0 then true
    else
      let back := (text.take mstart).reverse.dropWhile (fun c => c = ' ')
      if (match back.head? with
          | some c => c = '.' || c = '!' || c = '?'
          | none => false) then true
      else if isLowerAlpha ((pySlice text mstart mend).headD ' ') then true
      else false
  else false

/-- Embedding of `GeoExtractor._is_false_positive`. -/
def geoIsFalsePositive (name : String) (text : List Char) (mstart mend : Nat) : Bool :=
  if name = "Reading" &&
      (readingVerbSearch (pySlice text (mstart - 5) (min text.length (mend + 40)))
        || isLowerAlpha ((pySlice text mstart mend).headD ' ')) then true
  else geoAmbiguousPart name text mstart mend

/-- A `GeoExtractor.extract_locations` result entry. -/
structure GeoLocMatch where
  name : String
  region : String
  latitude : ℚ
  longitude : ℚ
deriving DecidableEq

/-- Embedding of `GeoExtractor.extract_locations`: per-name `finditer`
(word-boundary pattern for single words, substring for multi-word names),
false-positive filtering, per-name dedup, and a final sort by name. -/
def extractLocations (text : List Char) : List GeoLocMatch :=
  if text.isEmpty || (pyStrip text).isEmpty then []
  else
    let found := ukGazetteer.foldl (fun acc entry =>
      let ms := pyFinditer (!(entry.1.data.contains ' '))
        (entry.1.data.map asciiLower) text
      ms.foldl (fun acc2 m =>
        if geoIsFalsePositive entry.1 text m.1 m.2 then acc2
        else if (acc2.map GeoLocMatch.name).contains entry.1 then acc2
        else acc2 ++ [⟨entry.1, entry.2.2.2, entry.2.1, entry.2.2.1⟩]) acc) []
    found.insertionSort (fun a b => a.name ≤ b.name)

/-! ## Ingest pipeline (`collectors/pipeline.py`)

`_content_hash` is `hashlib.md5(normalised.encode()).hexdigest()`, a call
into an external C digest; it is modelled as a function parameter
`hash : String → String`.  Every dedup property of the pipeline depends
only on the hash being a function of the normalised content, which holds
for any parameter value.  The database session is modelled by its
observable inputs (the preloaded hash set and location-name cache) and
output (the list of samples handed to `_batch_insert`); with a single
writer `_batch_insert` persists every sample it is given, its
`IntegrityError` fallback existing only for conflicts with concurrent
writers outside this model.  Datetimes are abstract `Nat` timestamps. -/

/-- `CollectedItem` of `collectors/base.py`. -/
structure CollectedItem where
  title : String
  content : String
  sourceUrl : String
  author : Option String := none
  publishedAt : Option Nat := none
  locationHints : List String := []
  rawMetadata : List (String × String) := []
deriving DecidableEq, Inhabited

/-- The `raw_metadata` dict stored on a new sample: the item's
`raw_metadata` entries, plus `content_hash`, plus `location_hints` when
the item has any (an empty list models the absent key). -/
structure SampleMetadata where
  base : List (String × String)
  contentHash : String
  locationHints : List String
deriving DecidableEq

/-- A persisted `DiscourseSample` row (the fields set by
`IngestPipeline.ingest_items`). -/
structure DiscourseSample where
  title : String
  content : String
  sourceId : String
  sourceUrl : String
  author : Option String
  publishedAt : Option Nat
  collectedAt : Nat
  locationId : Option String
  metadata : SampleMetadata
deriving DecidableEq

/-- The `{"total", "new", "duplicates"}` stats dict. -/
structure IngestStats where
  total : Nat
  new : Nat
  duplicates : Nat
deriving DecidableEq

/-- Embedding of `IngestPipeline._resolve_location`: first hint found in
the location cache wins; otherwise the first `find_locations` match
found in the cache; otherwise none. -/
def resolveLocation (item : CollectedItem) (normalisedContent : List Char)
    (locationCache : List (String × String)) : Option String :=
  match item.locationHints.findSome?
      (fun hint => locationCache.lookup (String.mk (hint.data.map asciiLower))) with
  | some x => some x
  | none =>
    (findLocations normalisedContent).findSome?
      (fun m => locationCache.lookup (String.mk (m.name.data.map asciiLower)))

/-- The `DiscourseSample` built for a non-duplicate item. -/
def mkSample (now : Nat) (sourceId : String) (locationCache : List (String × String))
    (item : CollectedItem) (normalisedContent : List Char) (contentHash : String) :
    DiscourseSample :=
  { title := String.mk ((normaliseText item.title.data).take 512)
    content := String.mk normalisedContent
    sourceId := sourceId
    sourceUrl := if item.sourceUrl ≠ "" then String.mk (item.sourceUrl.data.take 2048) else ""
    author := match item.author with
      | some a => if a ≠ "" then some (String.mk (a.data.take 255)) else none
      | none => none
    publishedAt := item.publishedAt
    collectedAt := now
    locationId := resolveLocation item normalisedContent locationCache
    metadata := ⟨item.rawMetadata, contentHash, item.locationHints⟩ }

/-- The hash a given item contributes to dedup: the content hash of its
normalised content. -/
def itemHash (hash : String → String) (item : CollectedItem) : String :=
  hash (String.mk (normaliseText item.content.data))

/-- The per-item loop of `ingest_items`, returning
(new count, duplicate count, new samples in order).  `seen` is the
mutable `existing_hashes` set: a duplicate is skipped, a new item adds
its hash before the rest of the batch is processed. -/
def ingestGo (hash : String → String) (now : Nat) (sourceId : String)
    (cache : List (String × String)) :
    List CollectedItem → List String → Nat × Nat × List DiscourseSample
  | [], _ => (0, 0, [])
  | item :: rest, seen =>
    let nc := normaliseText item.content.data
    let h := hash (String.mk nc)
    if h ∈ seen then
      let r := ingestGo hash now sourceId cache rest seen
      (r.1, r.2.1 + 1, r.2.2)
    else
      let sample := mkSample now sourceId cache item nc h
      let r := ingestGo hash now sourceId cache rest (h :: seen)
      (r.1 + 1, r.2.1, sample :: r.2.2)

/-- Embedding of `IngestPipeline.ingest_items` for one source: given the
hash set already persisted for that source and the location cache,
return the stats dict and the list of newly persisted samples. -/
def ingestItems (hash : String → String) (now : Nat) (items : List CollectedItem)
    (sourceId : String) (existingHashes : List String)
    (locationCache : List (String × String)) : IngestStats × List DiscourseSample :=
  if items.isEmpty then (⟨items.length, 0, 0⟩, [])
  else
    let r := ingestGo hash now sourceId locationCache items existingHashes
    (⟨items.length, r.1, r.2.1⟩, r.2.2)

/-- Item `i` of the batch is a duplicate: its fingerprint is already in
the database hash set for the source, or equals the fingerprint of an
earlier item of the same batch. -/
def dupAtB (hash : String → String) (existing : List String)
    (items : List CollectedItem) (i : Nat) : Bool :=
  decide (itemHash hash (items.getD i default)
    ∈ existing ++ (items.take i).map (itemHash hash))

/-! ## Analysis orchestrator (`nlp/analyzer.py`)

`AnalysisEngine.analyze_batch` loops `analyze_sample` over the zipped id
and content lists after checking the lengths match.  `analyze_sample`
(four analyzers plus persistence over the session) is modelled as a
parameter `f : String → String → σ → Except ε ρ × σ`: given a sample id,
its content and the session state it either succeeds with a result
payload or raises, in both cases leaving a successor state (a raising
call may have partially mutated the session).  The result dicts are
`BatchEntry`: a success entry carries `sample_id` and the payload, a
failure entry is the `{sample_id, error: "Analysis failed"}`
placeholder. -/

/-- One entry of the `analyze_batch` result list. -/
inductive BatchEntry (ρ : Type) where
  | ok (sampleId : String) (result : ρ)
  | failed (sampleId : String) (msg : String)
deriving DecidableEq

/-- The `sample_id` field of an entry. -/
def entrySampleId {ρ : Type} : BatchEntry ρ → String
  | BatchEntry.ok s _ => s
  | BatchEntry.failed s _ => s

/-- The entry produced for one sample: the `analyze_sample` result on
success, the error placeholder when it raises. -/
def mkEntry {σ ε ρ : Type} (f : String → String → σ → Except ε ρ × σ)
    (sid content : String) (st : σ) : BatchEntry ρ :=
  match (f sid content st).1 with
  | Except.ok r => BatchEntry.ok sid r
  | Except.error _ => BatchEntry.failed sid "Analysis failed"

/-- The per-record loop of `analyze_batch` over the zipped pairs,
threading the session state. -/
def analyzeBatchGo {σ ε ρ : Type} (f : String → String → σ → Except ε ρ × σ) :
    List (String × String) → σ → List (BatchEntry ρ) × σ
  | [], st => ([], st)
  | p :: rest, st =>
    let fr := f p.1 p.2 st
    let r := analyzeBatchGo f rest fr.2
    ((match fr.1 with
      | Except.ok res => BatchEntry.ok p.1 res
      | Except.error _ => BatchEntry.failed p.1 "Analysis failed") :: r.1, r.2)

/-- The `ValueError` raised on mismatched input lengths. -/
inductive BatchError where
  | lengthMismatch
deriving DecidableEq

/-- Embedding of `AnalysisEngine.analyze_batch`. -/
def analyzeBatch {σ ε ρ : Type} (f : String → String → σ → Except ε ρ × σ)
    (sampleIds contents : List String) (st : σ) :
    Except BatchError (List (BatchEntry ρ) × σ) :=
  if sampleIds.length ≠ contents.length then Except.error BatchError.lengthMismatch
  else Except.ok (analyzeBatchGo f (sampleIds.zip contents) st)

/-- The session state just before record `i` of the batch is analysed. -/
def statesBefore {σ ε ρ : Type} (f : String → String → σ → Except ε ρ × σ)
    (pairs : List (String × String)) (st : σ) (i : Nat) : σ :=
  (pairs.take i).foldl (fun s p => (f p.1 p.2 s).2) st

/-! ## Trending themes (`AnalysisEngine._compute_trending_themes`)

The four database queries of `_compute_trending_themes` are modelled by
a list of `SampleTheme` rows, each carrying its theme name and whether
its sample's `created_at` is within the recent 30-day window
(`created_at >= recent_cutoff`).  The `scalar() or 1` defaults map a
zero count to 1.  A SQL `GROUP BY` returns groups in unspecified order;
the `recent_rows` dict is modelled in first-appearance order, and the
final stable sort by trend score makes the output independent of that
choice except between tied scores. -/

/-- One `SampleTheme` row joined to its sample: theme name and whether
the sample is within the 30-day window. -/
structure TrendRow where
  theme : String
  isRecent : Bool
deriving DecidableEq

/-- One entry of the trending result list. -/
structure TrendEntry where
  theme : String
  recentCount : Nat
  historicalCount : Nat
  trendScore : ℚ
deriving DecidableEq

/-- The rows within the recent window. -/
def recentRows (rows : List TrendRow) : List TrendRow :=
  rows.filter (fun r => r.isRecent)

/-- `total_all`: the all-time row count, defaulted to 1 when zero. -/
def totalAllOf (rows : List TrendRow) : Nat :=
  if rows.length = 0 then 1 else rows.length

/-- `total_recent`: the recent row count, defaulted to 1 when zero. -/
def totalRecentOf (rows : List TrendRow) : Nat :=
  if (recentRows rows).length = 0 then 1 else (recentRows rows).length

/-- `all_time_rows.get(theme, 0)`: all-time mention count of a theme. -/
def allTimeCount (rows : List TrendRow) (t : String) : Nat :=
  (rows.filter (fun r => r.theme = t)).length

/-- `recent_rows[theme]`: recent mention count of a theme. -/
def recentCountOf (rows : List TrendRow) (t : String) : Nat :=
  ((recentRows rows).filter (fun r => r.theme = t)).length

/-- Deduplication preserving first appearance (dict key order for the
grouped recent rows). -/
def firstOccur (seen : List String) : List String → List String
  | [] => []
  | t :: ts => if t ∈ seen then firstOccur seen ts else t :: firstOccur (t :: seen) ts

/-- The themes with at least one recent mention, in first-appearance
order. -/
def recentThemeNames (rows : List TrendRow) : List String :=
  firstOccur [] ((recentRows rows).map (fun r => r.theme))

/-- The trending dict built for one theme: recent share minus all-time
share, rounded to 4 decimal places. -/
def mkTrendEntry (rows : List TrendRow) (t : String) : TrendEntry :=
  ⟨t, recentCountOf rows t, allTimeCount rows t,
    round4 ((recentCountOf rows t : ℚ) / (totalRecentOf rows : ℚ)
      - (allTimeCount rows t : ℚ) / (totalAllOf rows : ℚ))⟩

/-- Embedding of `_compute_trending_themes`: score every recent theme,
sort by trend score descending (Python stable sort with
`reverse=True`), return the top 20. -/
def computeTrendingThemes (rows : List TrendRow) : List TrendEntry :=
  (((recentThemeNames rows).map (mkTrendEntry rows)).insertionSort
    (fun a b => b.trendScore ≤ a.trendScore)).take 20

/-- The trending scenario: a theme A with 5 recent and no older
mentions, a theme B with 5 recent and 100 older mentions. -/
def trendScenarioRows : List TrendRow :=
  List.replicate 5 ⟨"A", true⟩ ++ List.replicate 5 ⟨"B", true⟩
    ++ List.replicate 100 ⟨"B", false⟩

/-! ## Lemmas about splitting, joining and stripping -/

theorem pySplitAux_wf (s : List Char) :
    ∀ cur : List Char, (∀ c ∈ cur, isPySpace c = false) →
      ∀ t ∈ pySplitAux cur s, t ≠ [] ∧ ∀ c ∈ t, isPySpace c = false := by
  induction s with
  | nil =>
    intro cur hcur t ht
    cases hc : cur.isEmpty with
    | true => simp [pySplitAux, hc] at ht
    | false =>
      simp [pySplitAux, hc] at ht
      subst ht
      refine ⟨by simpa [List.isEmpty_iff] using hc, ?_⟩
      intro c hcmem
      exact hcur c (List.mem_reverse.mp hcmem)
  | cons c cs ih =>
    intro cur hcur t ht
    cases hsp : isPySpace c with
    | true =>
      cases hc : cur.isEmpty with
      | true =>
        rw [pySplitAux, hsp, if_pos rfl, hc, if_pos rfl] at ht
        exact ih [] (by simp) t ht
      | false =>
        rw [pySplitAux, hsp, if_pos rfl, hc] at ht
        simp only [Bool.false_eq_true, if_false, List.mem_cons] at ht
        rcases ht with ht | ht
        · subst ht
          refine ⟨by simpa [List.isEmpty_iff] using hc, ?_⟩
          intro d hd
          exact hcur d (List.mem_reverse.mp hd)
        · exact ih [] (by simp) t ht
    | false =>
      rw [pySplitAux, hsp] at ht
      simp only [Bool.false_eq_true, if_false] at ht
      refine ih (c :: cur) ?_ t ht
      intro d hd
      rcases List.mem_cons.mp hd with h | h
      · subst h; exact hsp
      · exact hcur d h

theorem pySplitAux_chars (s : List Char) :
    ∀ cur t, t ∈ pySplitAux cur s → ∀ c ∈ t, c ∈ cur ∨ c ∈ s := by
  induction s with
  | nil =>
    intro cur t ht c hc
    cases hcur : cur.isEmpty with
    | true => simp [pySplitAux, hcur] at ht
    | false =>
      simp [pySplitAux, hcur] at ht
      subst ht
      exact Or.inl (List.mem_reverse.mp hc)
  | cons a as ih =>
    intro cur t ht c hc
    cases hsp : isPySpace a with
    | true =>
      cases hcur : cur.isEmpty with
      | true =>
        rw [pySplitAux, hsp, if_pos rfl, hcur, if_pos rfl] at ht
        rcases ih [] t ht c hc with h | h
        · simp at h
        · exact Or.inr (List.mem_cons_of_mem a h)
      | false =>
        rw [pySplitAux, hsp, if_pos rfl, hcur] at ht
        simp only [Bool.false_eq_true, if_false, List.mem_cons] at ht
        rcases ht with ht | ht
        · subst ht
          exact Or.inl (List.mem_reverse.mp hc)
        · rcases ih [] t ht c hc with h | h
          · simp at h
          · exact Or.inr (List.mem_cons_of_mem a h)
    | false =>
      rw [pySplitAux, hsp] at ht
      simp only [Bool.false_eq_true, if_false] at ht
      rcases ih (a :: cur) t ht c hc with h | h
      · rcases List.mem_cons.mp h with h1 | h1
        · exact Or.inr (by rw [h1]; exact List.mem_cons_self a as)
        · exact Or.inl h1
      · exact Or.inr (List.mem_cons_of_mem a h)

theorem pySplitAux_append (t : List Char) (h : ∀ c ∈ t, isPySpace c = false) :
    ∀ cur rest, pySplitAux cur (t ++ rest) = pySplitAux (t.reverse ++ cur) rest := by
  induction t with
  | nil => intro cur rest; simp
  | cons c cs ih =>
    intro cur rest
    have hc : isPySpace c = false := h c (List.mem_cons_self c cs)
    have hcs : ∀ d ∈ cs, isPySpace d = false := fun d hd => h d (List.mem_cons_of_mem c hd)
    have step : pySplitAux cur ((c :: cs) ++ rest) = pySplitAux (c :: cur) (cs ++ rest) := by
      rw [List.cons_append, pySplitAux, hc]
      simp only [Bool.false_eq_true, if_false]
    rw [step, ih hcs (c :: cur) rest]
    simp [List.append_assoc]

theorem pySplit_pyJoin (toks : List (List Char))
    (h : ∀ t ∈ toks, t ≠ [] ∧ ∀ c ∈ t, isPySpace c = false) :
    pySplit (pyJoin toks) = toks := by
  induction toks with
  | nil => rfl
  | cons t ts ih =>
    obtain ⟨htne, htsp⟩ := h t (List.mem_cons_self t ts)
    have hrev : (t.reverse ++ []).isEmpty = false := by
      simp [List.isEmpty_iff, htne]
    cases ts with
    | nil =>
      show pySplitAux [] (pyJoin [t]) = [t]
      have : pyJoin [t] = t ++ [] := by simp [pyJoin]
      rw [this, pySplitAux_append t htsp [] []]
      simp [pySplitAux, hrev]
      simpa [List.isEmpty_iff] using htne
    | cons t' ts' =>
      show pySplitAux [] (pyJoin (t :: t' :: ts')) = t :: t' :: ts'
      have hjoin : pyJoin (t :: t' :: ts') = t ++ ' ' :: pyJoin (t' :: ts') := rfl
      rw [hjoin, pySplitAux_append t htsp [] _]
      have hsp : isPySpace ' ' = true := by decide
      simp only [pySplitAux, hsp, if_true, hrev, Bool.false_eq_true, if_false]
      rw [List.append_nil, List.reverse_reverse]
      refine congrArg (t :: ·) ?_
      exact ih (fun u hu => h u (List.mem_cons_of_mem t hu))

theorem mem_pyJoin (toks : List (List Char)) (c : Char) (hc : c ∈ pyJoin toks) :
    c = ' ' ∨ ∃ t ∈ toks, c ∈ t := by
  induction toks with
  | nil => simp [pyJoin] at hc
  | cons t ts ih =>
    cases ts with
    | nil =>
      simp only [pyJoin] at hc
      exact Or.inr ⟨t, List.mem_cons_self t [], hc⟩
    | cons t' ts' =>
      simp only [pyJoin, List.mem_append, List.mem_cons] at hc
      rcases hc with hc | hc | hc
      · exact Or.inr ⟨t, List.mem_cons_self t _, hc⟩
      · exact Or.inl hc
      · rcases ih hc with h | ⟨u, hu, hcu⟩
        · exact Or.inl h
        · exact Or.inr ⟨u, List.mem_cons_of_mem t hu, hcu⟩

theorem pyJoin_reverse_head (toks : List (List Char))
    (h : ∀ t ∈ toks, t ≠ [] ∧ ∀ c ∈ t, isPySpace c = false) (hne : toks ≠ []) :
    ∃ c cs, (pyJoin toks).reverse = c :: cs ∧ isPySpace c = false := by
  induction toks with
  | nil => exact absurd rfl hne
  | cons t ts ih =>
    obtain ⟨htne, htsp⟩ := h t (List.mem_cons_self t ts)
    cases ts with
    | nil =>
      have : pyJoin [t] = t := rfl
      rw [this]
      cases hrev : t.reverse with
      | nil => exact absurd (by simpa using hrev) htne
      | cons c cs =>
        refine ⟨c, cs, rfl, ?_⟩
        have : c ∈ t.reverse := by rw [hrev]; exact List.mem_cons_self c cs
        exact htsp c (List.mem_reverse.mp this)
    | cons t' ts' =>
      obtain ⟨c, cs, hcs, hcsp⟩ :=
        ih (fun u hu => h u (List.mem_cons_of_mem t hu)) (by simp)
      have : pyJoin (t :: t' :: ts') = t ++ ' ' :: pyJoin (t' :: ts') := rfl
      rw [this, List.reverse_append, List.reverse_cons, List.append_assoc, hcs]
      exact ⟨c, cs ++ [' '] ++ t.reverse, by simp, hcsp⟩

theorem pyJoin_head (toks : List (List Char))
    (h : ∀ t ∈ toks, t ≠ [] ∧ ∀ c ∈ t, isPySpace c = false) (hne : toks ≠ []) :
    ∃ c cs, pyJoin toks = c :: cs ∧ isPySpace c = false := by
  cases toks with
  | nil => exact absurd rfl hne
  | cons t ts =>
    obtain ⟨htne, htsp⟩ := h t (List.mem_cons_self t ts)
    cases ht : t with
    | nil => exact absurd ht htne
    | cons c t0 =>
      have hcsp : isPySpace c = false := htsp c (by rw [ht]; exact List.mem_cons_self c t0)
      cases ts with
      | nil => exact ⟨c, t0, by simp [pyJoin, ht], hcsp⟩
      | cons t' ts' =>
        refine ⟨c, t0 ++ ' ' :: pyJoin (t' :: ts'), ?_, hcsp⟩
        subst ht
        show (c :: t0) ++ ' ' :: pyJoin (t' :: ts') = c :: (t0 ++ ' ' :: pyJoin (t' :: ts'))
        simp

theorem pyStrip_pyJoin (toks : List (List Char))
    (h : ∀ t ∈ toks, t ≠ [] ∧ ∀ c ∈ t, isPySpace c = false) :
    pyStrip (pyJoin toks) = pyJoin toks := by
  cases htoks : toks with
  | nil => rfl
  | cons t ts =>
    rw [← htoks]
    obtain ⟨c, cs, hcons, hcsp⟩ := pyJoin_head toks h (by rw [htoks]; simp)
    obtain ⟨d, ds, hrcons, hdsp⟩ := pyJoin_reverse_head toks h (by rw [htoks]; simp)
    unfold pyStrip
    rw [hcons, List.dropWhile_cons, if_neg (by simp [hcsp]), ← hcons, hrcons,
      List.dropWhile_cons, if_neg (by simp [hdsp]), ← hrcons, List.reverse_reverse]

theorem pySplit_wf (s : List Char) :
    ∀ t ∈ pySplit s, t ≠ [] ∧ ∀ c ∈ t, isPySpace c = false :=
  pySplitAux_wf s [] (by simp)

theorem pySplit_chars (s : List Char) : ∀ t ∈ pySplit s, ∀ c ∈ t, c ∈ s := by
  intro t ht c hc
  rcases pySplitAux_chars s [] t ht c hc with h | h
  · simp at h
  · exact h

/-! ## Lemmas about the NFC model on ASCII characters

Every ASCII code point is canonically inert in the Unicode character
database, and the model data agrees with the UCD on the whole ASCII
range: combining class 0, no canonical decomposition, no canonical
composition with a preceding character.  Hence the model NFC, like real
NFC, is the identity on ASCII strings. -/

theorem canonFullDecomp_ascii (c : Char) (h : isAsciiChar c = true) :
    canonFullDecomp c = [c] := by
  have hne : c ≠ aAcute := by
    intro he
    rw [he] at h
    exact absurd h (by decide)
  simp [canonFullDecomp, hne]

theorem ccc_ascii (c : Char) (h : isAsciiChar c = true) : ccc c = 0 := by
  have hne : c ≠ combAcute := by
    intro he
    rw [he] at h
    exact absurd h (by decide)
  simp [ccc, hne]

theorem canonComp_ascii (a c : Char) (h : isAsciiChar c = true) :
    canonComp a c = none := by
  have hne : c ≠ combAcute := by
    intro he
    rw [he] at h
    exact absurd h (by decide)
  unfold canonComp
  rw [if_neg]
  simp [hne]

theorem canonDecompose_ascii (l : List Char) (h : ∀ c ∈ l, isAsciiChar c = true) :
    canonDecompose l = l := by
  induction l with
  | nil => rfl
  | cons c cs ih =>
    have hc := canonFullDecomp_ascii c (h c (List.mem_cons_self c cs))
    have hcs := ih (fun d hd => h d (List.mem_cons_of_mem c hd))
    simp only [canonDecompose, List.flatMap_cons, hc]
    simpa [canonDecompose] using hcs

theorem canonReorderGo_starters (l : List Char) (h : ∀ c ∈ l, ccc c = 0) :
    canonReorderGo [] l = l := by
  induction l with
  | nil => rfl
  | cons c cs ih =>
    have hc := h c (List.mem_cons_self c cs)
    simp only [canonReorderGo, hc, if_true, List.reverse_nil]
    have : sortMarks [] = [] := rfl
    rw [this, List.nil_append]
    exact congrArg (c :: ·) (ih (fun d hd => h d (List.mem_cons_of_mem c hd)))

theorem composeGo_ascii (s : Char) (l : List Char)
    (h : ∀ c ∈ l, isAsciiChar c = true) : composeGo s [] l = s :: l := by
  induction l generalizing s with
  | nil => rfl
  | cons d ds ih =>
    have hd : isAsciiChar d = true := h d (List.mem_cons_self d ds)
    have hccc := ccc_ascii d hd
    have hcomp := canonComp_ascii s d hd
    simp only [composeGo, hccc, if_true, hcomp, List.reverse_nil, List.nil_append]
    exact congrArg (s :: ·) (ih d (fun e he => h e (List.mem_cons_of_mem d he)))

theorem composePass_ascii (l : List Char) (h : ∀ c ∈ l, isAsciiChar c = true) :
    composePass l = l := by
  cases l with
  | nil => rfl
  | cons c cs =>
    have hc := ccc_ascii c (h c (List.mem_cons_self c cs))
    simp only [composePass, hc, if_true]
    exact composeGo_ascii c cs (fun d hd => h d (List.mem_cons_of_mem c hd))

theorem nfc_ascii (l : List Char) (h : ∀ c ∈ l, isAsciiChar c = true) :
    nfc l = l := by
  unfold nfc canonReorder
  rw [canonDecompose_ascii l h,
    canonReorderGo_starters l (fun c hc => ccc_ascii c (h c hc)),
    composePass_ascii l h]

/-! ## Structure of the normaliser output -/

theorem normaliseText_empty (x : List Char) (hx : x.isEmpty = true) :
    normaliseText x = [] := by
  unfold normaliseText
  rw [if_pos hx]

theorem normaliseText_of_ne (x : List Char) (hx : x.isEmpty = false) :
    normaliseText x = pyJoin (pySplit ((nfc x).filter (fun c => c ≠ '\x00'))) := by
  unfold normaliseText
  rw [if_neg (by simp [hx])]
  exact pyStrip_pyJoin _ (pySplit_wf _)

theorem normaliseText_mem (x : List Char) (c : Char) (hc : c ∈ normaliseText x) :
    c = ' ' ∨ (c ∈ nfc x ∧ c ≠ '\x00') := by
  by_cases hx : x.isEmpty
  · rw [normaliseText, if_pos hx] at hc
    simp at hc
  · rw [normaliseText_of_ne x (by simpa using hx)] at hc
    rcases mem_pyJoin _ c hc with h | ⟨t, ht, hct⟩
    · exact Or.inl h
    · have := pySplit_chars _ t ht c hct
      rcases List.mem_filter.mp this with ⟨hmem, hne⟩
      exact Or.inr ⟨hmem, by simpa using hne⟩

/-! ## C3 -/

/-- C3 counterexample: `_normalise_text` does not remove the control
character U+0001; the normalised form of the string a, U+0001, b still
contains a Unicode Cc control character.  (Only NUL and whitespace-class
controls are removed by the source.) -/
theorem c3_control_counterexample :
    (normaliseText ['a', '\x01', 'b']).any isCcControl = true := by decide

/-- C3 (amended): for every input, the normalised text contains no NUL,
every whitespace character in it is a single interior space, and it is a
fixed point of whitespace collapsing (join of split), i.e. whitespace is
collapsed to single spaces with no leading or trailing whitespace.
Control characters other than NUL and whitespace-class controls are
preserved, not removed. -/
theorem c3_normalise_no_nul_wellspaced (x : List Char) :
    '\x00' ∉ normaliseText x
    ∧ (∀ c ∈ normaliseText x, isPySpace c = true → c = ' ')
    ∧ pyJoin (pySplit (normaliseText x)) = normaliseText x := by
  refine ⟨?_, ?_, ?_⟩
  · intro hmem
    rcases normaliseText_mem x _ hmem with h | ⟨_, h⟩
    · exact absurd h (by decide)
    · exact h rfl
  · intro c hc hsp
    by_cases hx : x.isEmpty
    · rw [normaliseText, if_pos hx] at hc
      simp at hc
    · rw [normaliseText_of_ne x (by simpa using hx)] at hc
      rcases mem_pyJoin _ c hc with h | ⟨t, ht, hct⟩
      · exact h
      · have := (pySplit_wf _ t ht).2 c hct
        rw [this] at hsp
        cases hsp
  · by_cases hx : x.isEmpty
    · rw [normaliseText, if_pos hx]
      rfl
    · rw [normaliseText_of_ne x (by simpa using hx),
        pySplit_pyJoin _ (pySplit_wf _)]

/-! ## C2 -/

/-- C2 counterexample: normalisation is not idempotent.  On the input
a, NUL, U+0301 the first pass removes the NUL after NFC has already run,
leaving the decomposed pair a, U+0301; a second pass NFC-composes that
pair to U+00E1, changing the string. -/
theorem c2_idempotence_counterexample :
    normaliseText (normaliseText ['a', '\x00', combAcute])
      ≠ normaliseText ['a', '\x00', combAcute] := by decide

/-- C2 (amended): normalisation is idempotent on every input consisting
solely of ASCII characters, on which Unicode NFC (both the real one and
the model) is the identity.  Full idempotence fails: removing NUL after
NFC can juxtapose a base letter with a combining mark that a second
pass then composes. -/
theorem c2_normalise_idempotent_ascii (x : List Char)
    (h : ∀ c ∈ x, isAsciiChar c = true) :
    normaliseText (normaliseText x) = normaliseText x := by
  by_cases hx : x.isEmpty
  · rw [normaliseText_empty x hx, normaliseText_empty [] rfl]
  · have hout : ∀ c ∈ normaliseText x, isAsciiChar c = true := by
      intro c hc
      rcases normaliseText_mem x c hc with hsp | ⟨hmem, _⟩
      · subst hsp; decide
      · have : nfc x = x := nfc_ascii x h
        rw [this] at hmem
        exact h c hmem
    by_cases hout0 : (normaliseText x).isEmpty
    · have hnil : normaliseText x = [] := List.isEmpty_iff.mp hout0
      rw [hnil, normaliseText_empty [] rfl]
    · have hnonul : ∀ c ∈ normaliseText x, c ≠ '\x00' := by
        intro c hc
        rcases normaliseText_mem x c hc with hsp | ⟨_, hne⟩
        · subst hsp; decide
        · exact hne
      rw [normaliseText_of_ne _ (by simpa using hout0),
        nfc_ascii _ hout, List.filter_eq_self.mpr (by
          intro c hc
          simpa using hnonul c hc)]
      conv_lhs => rw [normaliseText_of_ne x (by simpa using hx)]
      rw [pySplit_pyJoin _ (pySplit_wf _)]
      exact (normaliseText_of_ne x (by simpa using hx)).symm

/-- C2 witness: the amended idempotence theorem applied to the concrete
ASCII input a, NUL, space, b. -/
theorem c2_idempotent_witness :
    (∀ c ∈ ['a', '\x00', ' ', 'b'], isAsciiChar c = true)
    ∧ normaliseText (normaliseText ['a', '\x00', ' ', 'b'])
        = normaliseText ['a', '\x00', ' ', 'b'] :=
  ⟨by decide, c2_normalise_idempotent_ascii ['a', '\x00', ' ', 'b'] (by decide)⟩

/-- C3 witness: the amended well-spacedness theorem applied to the
concrete input a, U+0001, b. -/
theorem c3_wellspaced_witness :
    '\x00' ∉ normaliseText ['a', '\x01', 'b'] :=
  (c3_normalise_no_nul_wellspaced ['a', '\x01', 'b']).1

/-! ## Rounding bounds -/

theorem round_le_of_le (q : ℚ) (m : ℤ) (h : q ≤ (m : ℚ)) : round q ≤ m := by
  rw [round_eq]
  calc ⌊q + 1 / 2⌋ ≤ ⌊(m : ℚ) + 1 / 2⌋ := Int.floor_le_floor (by linarith)
    _ = ⌊(1 : ℚ) / 2 + (m : ℚ)⌋ := by ring_nf
    _ = ⌊(1 : ℚ) / 2⌋ + m := Int.floor_add_int _ _
    _ = m := by norm_num

theorem le_round_of_le (q : ℚ) (m : ℤ) (h : (m : ℚ) ≤ q) : m ≤ round q := by
  rw [round_eq]
  have : (⌊(1 : ℚ) / 2⌋ + m : ℤ) ≤ ⌊q + 1 / 2⌋ := by
    calc (⌊(1 : ℚ) / 2⌋ + m : ℤ) = ⌊(1 : ℚ) / 2 + (m : ℚ)⌋ := (Int.floor_add_int _ _).symm
      _ ≤ ⌊q + 1 / 2⌋ := Int.floor_le_floor (by linarith)
  have h0 : (⌊(1 : ℚ) / 2⌋ : ℤ) = 0 := by norm_num
  omega

theorem round4_le_of_le (q : ℚ) (m : ℤ) (h : q ≤ (m : ℚ) / 10000) :
    round4 q ≤ (m : ℚ) / 10000 := by
  unfold round4
  have h1 : q * 10000 ≤ (m : ℚ) := by linarith
  have h2 : round (q * 10000) ≤ m := round_le_of_le _ m h1
  have h3 : ((round (q * 10000) : ℤ) : ℚ) ≤ (m : ℚ) := by exact_mod_cast h2
  linarith

theorem le_round4_of_le (q : ℚ) (m : ℤ) (h : (m : ℚ) / 10000 ≤ q) :
    (m : ℚ) / 10000 ≤ round4 q := by
  unfold round4
  have h1 : (m : ℚ) ≤ q * 10000 := by linarith
  have h2 : m ≤ round (q * 10000) := le_round_of_le _ m h1
  have h3 : (m : ℚ) ≤ ((round (q * 10000) : ℤ) : ℚ) := by exact_mod_cast h2
  linarith

theorem round4_pm1 (q : ℚ) (h1 : -1 ≤ q) (h2 : q ≤ 1) :
    -1 ≤ round4 q ∧ round4 q ≤ 1 := by
  constructor
  · have := le_round4_of_le q (-10000) (by push_cast; linarith)
    push_cast at this
    linarith
  · have := round4_le_of_le q 10000 (by push_cast; linarith)
    push_cast at this
    linarith

theorem round4_conf (q : ℚ) (h1 : 3 / 10 ≤ q) (h2 : q ≤ 1) :
    3 / 10 ≤ round4 q ∧ round4 q ≤ 1 := by
  constructor
  · have := le_round4_of_le q 3000 (by push_cast; linarith)
    push_cast at this
    linarith
  · have := round4_le_of_le q 10000 (by push_cast; linarith)
    push_cast at this
    linarith

/-! ## C4 -/

theorem computeClimateAdjustment_bounds (text : List Char) :
    -(1 / 2) ≤ computeClimateAdjustment text ∧ computeClimateAdjustment text ≤ 1 / 2 := by
  unfold computeClimateAdjustment
  constructor
  · have : (-(1 / 2) : ℚ) = -0.5 := by norm_num
    rw [this]
    exact le_max_left _ _
  · apply max_le
    · norm_num
    · calc min (0.5 : ℚ) _ ≤ 0.5 := min_le_left _ _
        _ = 1 / 2 := by norm_num

theorem computeConfidence_bounds (v : VaderScores) (adj : ℚ) :
    3 / 10 ≤ computeConfidence v adj ∧ computeConfidence v adj ≤ 1 := by
  unfold computeConfidence
  apply round4_conf
  · calc (3 / 10 : ℚ) = 0.3 := by norm_num
      _ ≤ max 0.3 _ := le_max_left _ _
  · apply max_le
    · norm_num
    · calc min (1 : ℚ) _ ≤ 1 := min_le_left _ _

/-- C4: for every input text and every VADER score record whose compound
score lies in [-1, 1], `SentimentAnalyzer.analyze` returns an overall
sentiment in [-1, 1] and a confidence in [0.3, 1]; the climate adjustment
is clamped to [-0.5, 0.5], and on non-blank text the overall sentiment is
the compound score plus that adjustment, clamped to [-1, 1] and rounded
to 4 decimal places. -/
theorem c4_sentiment_bounds (v : VaderScores) (text : List Char)
    (h1 : -1 ≤ v.compound) (h2 : v.compound ≤ 1) :
    (-1 ≤ (sentimentAnalyze v text).overallSentiment
      ∧ (sentimentAnalyze v text).overallSentiment ≤ 1)
    ∧ (3 / 10 ≤ (sentimentAnalyze v text).confidence
      ∧ (sentimentAnalyze v text).confidence ≤ 1)
    ∧ (-(1 / 2) ≤ computeClimateAdjustment text ∧ computeClimateAdjustment text ≤ 1 / 2)
    ∧ ((text.isEmpty || (pyStrip text).isEmpty) = false →
        (sentimentAnalyze v text).overallSentiment
          = round4 (max (-1) (min 1 (v.compound + computeClimateAdjustment text)))) := by
  by_cases hblank : (text.isEmpty || (pyStrip text).isEmpty) = true
  · rw [sentimentAnalyze, if_pos hblank]
    refine ⟨⟨by norm_num, by norm_num⟩, ⟨by norm_num, by norm_num⟩,
      computeClimateAdjustment_bounds text, ?_⟩
    intro hfalse
    rw [hblank] at hfalse
    cases hfalse
  · have hb : (text.isEmpty || (pyStrip text).isEmpty) = false := by
      simpa using hblank
    rw [sentimentAnalyze, if_neg (by simp [hb])]
    have hclamp1 : -1 ≤ max (-1 : ℚ) (min 1 (v.compound + computeClimateAdjustment text)) :=
      le_max_left _ _
    have hclamp2 : max (-1 : ℚ) (min 1 (v.compound + computeClimateAdjustment text)) ≤ 1 := by
      apply max_le
      · norm_num
      · exact min_le_left _ _
    exact ⟨round4_pm1 _ hclamp1 hclamp2, computeConfidence_bounds v _,
      computeClimateAdjustment_bounds text, fun _ => rfl⟩

/-- C4 witness: the bounds theorem applied to the VADER scores
(-0.3, 0.1, 0.2, 0.7) and the concrete text "flood damage". -/
theorem c4_bounds_witness :
    (-1 ≤ (-3 / 10 : ℚ) ∧ (-3 / 10 : ℚ) ≤ 1)
    ∧ ((-1 ≤ (sentimentAnalyze ⟨-3 / 10, 1 / 10, 1 / 5, 7 / 10⟩
          (("flood damage").data)).overallSentiment
      ∧ (sentimentAnalyze ⟨-3 / 10, 1 / 10, 1 / 5, 7 / 10⟩
          (("flood damage").data)).overallSentiment ≤ 1)
    ∧ (3 / 10 ≤ (sentimentAnalyze ⟨-3 / 10, 1 / 10, 1 / 5, 7 / 10⟩
          (("flood damage").data)).confidence
      ∧ (sentimentAnalyze ⟨-3 / 10, 1 / 10, 1 / 5, 7 / 10⟩
          (("flood damage").data)).confidence ≤ 1)
    ∧ (-(1 / 2) ≤ computeClimateAdjustment (("flood damage").data)
      ∧ computeClimateAdjustment (("flood damage").data) ≤ 1 / 2)
    ∧ (((("flood damage").data).isEmpty || (pyStrip (("flood damage").data)).isEmpty) = false →
        (sentimentAnalyze ⟨-3 / 10, 1 / 10, 1 / 5, 7 / 10⟩
            (("flood damage").data)).overallSentiment
          = round4 (max (-1) (min 1 (-3 / 10 + computeClimateAdjustment
              (("flood damage").data)))))) :=
  ⟨⟨by norm_num, by norm_num⟩,
    c4_sentiment_bounds ⟨-3 / 10, 1 / 10, 1 / 5, 7 / 10⟩ (("flood damage").data)
      (by norm_num) (by norm_num)⟩

/-! ## C5 -/

theorem round4_err (q : ℚ) : |round4 q - q| ≤ 1 / 20000 := by
  have h : round4 q - q = ((round (q * 10000) : ℤ) - q * 10000) / 10000 := by
    unfold round4; ring
  have h2 : |q * 10000 - ((round (q * 10000) : ℤ) : ℚ)| ≤ 1 / 2 :=
    abs_sub_round (q * 10000)
  rw [abs_sub_comm] at h2
  rw [h, abs_div]
  have h3 : |(10000 : ℚ)| = 10000 := by norm_num
  rw [h3]
  have h4 := (div_le_div_iff_of_pos_right (show (0 : ℚ) < 10000 by norm_num)).mpr h2
  calc |((round (q * 10000) : ℤ) : ℚ) - q * 10000| / 10000
      ≤ (1 / 2) / 10000 := h4
    _ = 1 / 20000 := by norm_num

theorem sum_map_round4_err (l : List ℚ) :
    |(l.map round4).sum - l.sum| ≤ (l.length : ℚ) / 20000 := by
  induction l with
  | nil => simp
  | cons a as ih =>
    simp only [List.map_cons, List.sum_cons, List.length_cons]
    calc |round4 a + (as.map round4).sum - (a + as.sum)|
        = |(round4 a - a) + ((as.map round4).sum - as.sum)| := by ring_nf
      _ ≤ |round4 a - a| + |(as.map round4).sum - as.sum| := abs_add _ _
      _ ≤ 1 / 20000 + (as.length : ℚ) / 20000 := add_le_add (round4_err a) ih
      _ = ((as.length + 1 : ℕ) : ℚ) / 20000 := by push_cast; ring

theorem sum_map_const_rat {α : Type} (l : List α) (x : ℚ) :
    (l.map (fun _ => x)).sum = (l.length : ℚ) * x := by
  induction l with
  | nil => simp
  | cons a as ih =>
    simp only [List.map_cons, List.sum_cons, List.length_cons, ih]
    push_cast
    ring

theorem sum_map_div_rat (l : List ℚ) (t : ℚ) :
    (l.map (fun x => x / t)).sum = l.sum / t := by
  induction l with
  | nil => simp
  | cons a as ih => simp [ih, div_add_div_same]

theorem normaliseScores_fsts (scores : List (String × ℚ)) :
    (normaliseScores scores).map Prod.fst = scores.map Prod.fst := by
  by_cases h0 : (scores.map Prod.snd).sum = 0 <;>
    simp [normaliseScores, h0, List.map_map, Function.comp]

theorem normaliseScores_sum (scores : List (String × ℚ)) (hne : scores ≠ []) :
    |((normaliseScores scores).map Prod.snd).sum - 1| ≤ (scores.length : ℚ) / 20000 := by
  unfold normaliseScores
  by_cases h0 : (scores.map Prod.snd).sum = 0
  · rw [if_pos h0]
    have hlen0 : (scores.length : ℚ) ≠ 0 :=
      Nat.cast_ne_zero.mpr (List.length_pos.mpr hne).ne'
    have hmap : ((scores.map (fun c => (c.1, round4 (1 / (scores.length : ℚ))))).map Prod.snd)
        = scores.map (fun _ => round4 (1 / (scores.length : ℚ))) := by
      rw [List.map_map]
      rfl
    rw [hmap, sum_map_const_rat]
    have h1 : (scores.length : ℚ) * (1 / (scores.length : ℚ)) = 1 := by
      field_simp
    calc |(scores.length : ℚ) * round4 (1 / (scores.length : ℚ)) - 1|
        = |(scores.length : ℚ) * round4 (1 / (scores.length : ℚ))
            - (scores.length : ℚ) * (1 / (scores.length : ℚ))| := by rw [h1]
      _ = (scores.length : ℚ) * |round4 (1 / (scores.length : ℚ))
            - 1 / (scores.length : ℚ)| := by
          rw [← mul_sub, abs_mul, abs_of_nonneg (by positivity : (0 : ℚ) ≤ (scores.length : ℚ))]
      _ ≤ (scores.length : ℚ) * (1 / 20000) :=
          mul_le_mul_of_nonneg_left (round4_err _) (by positivity)
      _ = (scores.length : ℚ) / 20000 := by ring
  · rw [if_neg h0]
    have hmap : ((scores.map (fun c => (c.1, round4 (c.2 / (scores.map Prod.snd).sum)))).map
          Prod.snd)
        = ((scores.map Prod.snd).map (fun x => x / (scores.map Prod.snd).sum)).map round4 := by
      rw [List.map_map, List.map_map, List.map_map]
      rfl
    rw [hmap]
    have hl : ((scores.map Prod.snd).map (fun x => x / (scores.map Prod.snd).sum)).sum = 1 := by
      rw [sum_map_div_rat, div_self h0]
    have herr := sum_map_round4_err
      ((scores.map Prod.snd).map (fun x => x / (scores.map Prod.snd).sum))
    rw [hl] at herr
    simpa using herr

theorem normaliseScores_uniform (scores : List (String × ℚ))
    (h : ∀ kv ∈ scores, kv.2 = 0) :
    ∀ kv ∈ normaliseScores scores, kv.2 = round4 (1 / (scores.length : ℚ)) := by
  have htot : (scores.map Prod.snd).sum = 0 := by
    apply List.sum_eq_zero
    intro x hx
    rcases List.mem_map.mp hx with ⟨p, hp, rfl⟩
    exact h p hp
  intro kv hkv
  unfold normaliseScores at hkv
  rw [if_pos htot] at hkv
  rcases List.mem_map.mp hkv with ⟨p, _, rfl⟩
  rfl

theorem classifyText_allScores_blank (root : Nat → ℚ) (text : List Char)
    (hb : (text.isEmpty || (pyStrip text).isEmpty) = true) :
    (classifyText root text).allScores
      = normaliseScores (categoryKeywordTable.map (fun c => (c.1, 0))) := by
  unfold classifyText
  rw [if_pos hb]

theorem classifyText_allScores_nonblank (root : Nat → ℚ) (text : List Char)
    (hb : ¬ (text.isEmpty || (pyStrip text).isEmpty) = true) :
    (classifyText root text).allScores = normaliseScores (scoreText root text) := by
  unfold classifyText
  rw [if_neg hb]

theorem round4_fifth : round4 (1 / 5) = 1 / 5 := by
  have h : (1 / 5 : ℚ) * 10000 = ((2000 : ℤ) : ℚ) := by norm_num
  rw [round4, h, round_intCast]
  norm_num

/-- C5: for every input text (and any value of the square-root parameter),
`DiscourseClassifier.classify` returns an `all_scores` map whose keys are
exactly the five categories and whose values sum to 1 within the rounding
tolerance 1/4000 = 5 half-ulps of 4-decimal rounding; and whenever every
raw category total is zero (e.g. on empty text), the distribution is the
uniform 0.2 per category. -/
theorem c5_classifier_distribution (root : Nat → ℚ) (text : List Char) :
    ((classifyText root text).allScores.map Prod.fst = categoryKeywordTable.map Prod.fst)
    ∧ |(((classifyText root text).allScores.map Prod.snd).sum) - 1| ≤ 1 / 4000
    ∧ ((∀ kv ∈ scoreText root text, kv.2 = 0) →
        ∀ kv ∈ (classifyText root text).allScores, kv.2 = 1 / 5) := by
  have htne : categoryKeywordTable ≠ [] := by
    unfold categoryKeywordTable
    exact List.cons_ne_nil _ _
  have hlen : categoryKeywordTable.length = 5 := by rfl
  by_cases hb : (text.isEmpty || (pyStrip text).isEmpty) = true
  · rw [classifyText_allScores_blank root text hb]
    refine ⟨?_, ?_, ?_⟩
    · rw [normaliseScores_fsts]
      rfl
    · have hne : categoryKeywordTable.map (fun c => (c.1, (0 : ℚ))) ≠ [] := by
        simpa using htne
      calc |((normaliseScores (categoryKeywordTable.map (fun c => (c.1, (0 : ℚ))))).map
              Prod.snd).sum - 1|
          ≤ ((categoryKeywordTable.map (fun c => (c.1, (0 : ℚ)))).length : ℚ) / 20000 :=
            normaliseScores_sum _ hne
        _ = 1 / 4000 := by
            simp only [List.length_map, hlen]
            norm_num
    · intro _
      intro kv hkv
      have hz : ∀ p ∈ categoryKeywordTable.map (fun c => (c.1, (0 : ℚ))), p.2 = 0 := by
        intro p hp
        rcases List.mem_map.mp hp with ⟨q, _, rfl⟩
        rfl
      have := normaliseScores_uniform _ hz kv hkv
      rw [this]
      simpa [hlen] using round4_fifth
  · rw [classifyText_allScores_nonblank root text hb]
    have hsne : scoreText root text ≠ [] := by
      unfold scoreText
      simpa using htne
    have hslen : (scoreText root text).length = 5 := by
      unfold scoreText
      simpa using hlen
    refine ⟨?_, ?_, ?_⟩
    · rw [normaliseScores_fsts]
      rfl
    · calc |((normaliseScores (scoreText root text)).map Prod.snd).sum - 1|
          ≤ ((scoreText root text).length : ℚ) / 20000 := normaliseScores_sum _ hsne
        _ = 1 / 4000 := by
            rw [hslen]
            norm_num
    · intro hz kv hkv
      have hkv2 := normaliseScores_uniform _ hz kv hkv
      rw [hkv2, hslen]
      simpa using round4_fifth

/-- C5 witness: with the square root modelled by the rational identity
function and empty input, every raw total is zero and the classification
distribution is uniform at 0.2 per category. -/
theorem c5_uniform_witness :
    ∀ kv ∈ (classifyText (fun n => (n : ℚ)) []).allScores, kv.2 = 1 / 5 :=
  (c5_classifier_distribution (fun n => (n : ℚ)) []).2.2 (by decide)

/-! ## C6 -/

/-- C6: both gazetteer matchers disambiguate the ambiguous place name
"Reading": the sentence using "reading" as a verb yields no location
match, while "flooding in Reading town centre" yields a match for
Reading (region `SOUTH_EAST` in the pipeline matcher, with the South
East coordinates in the analysis matcher). -/
theorem c6_reading_disambiguation :
    findLocations (("I was reading a book").data) = []
    ∧ findLocations (("flooding in Reading town centre").data)
        = [⟨"Reading", "SOUTH_EAST"⟩]
    ∧ extractLocations (("I was reading a book").data) = []
    ∧ extractLocations (("flooding in Reading town centre").data)
        = [⟨"Reading", "South East", 51.4543, -0.9781⟩] := by
  refine ⟨by decide, by decide, by decide, by rfl⟩

/-! ## C7 -/

/-- C7 counterexample: the `GeoExtractor.extract_locations` gazetteer
matcher (nlp/geographic.py) has no New-York filter; on "visiting New
York" the occurrence of "York" immediately preceded by "New" passes the
preposition-context heuristic ("visiting ") and is reported as a York
location match. -/
theorem c7_geoextractor_counterexample :
    (extractLocations (("visiting New York").data)).map GeoLocMatch.name
      = ["York"] := by decide

/-- C7 (amended): the ingest-pipeline matcher `find_locations`
(collectors/locations.py) never reports an occurrence of "York"
immediately preceded by "New": any match whose lower-cased text is
"york" and whose preceding four characters end (after right-stripping)
in "new" leaves the match-loop state unchanged.  The
`GeoExtractor.extract_locations` matcher has no such filter and can
report York inside "New York" contexts. -/
theorem c7_new_york_filter :
    (∀ (text : List Char) (st : List String × List LocMatch) (i : Nat)
        (nm : List Char), String.mk nm = "york" →
        isNewYorkPrefix text i (i + nm.length) = true →
        flStep text st (i, nm) = st)
    ∧ findLocations (("Sightseeing in New York").data) = [] := by
  constructor
  · intro text st i nm hnm hny
    by_cases hseen : String.mk nm ∈ st.1
    · simp [flStep, hseen]
    · simp [flStep, hseen, hnm, hny]
  · decide

/-- C7 witness: the New-York filter theorem applied to the match of
"york" at position 4 of the concrete text "New York". -/
theorem c7_filter_witness :
    (String.mk (("york").data) = "york")
    ∧ (isNewYorkPrefix (("New York").data) 4 (4 + (("york").data).length) = true)
    ∧ flStep (("New York").data) ([], []) (4, ("york").data) = ([], []) :=
  ⟨rfl, by decide,
    c7_new_york_filter.1 (("New York").data) ([], []) 4 (("york").data) rfl (by decide)⟩

/-! ## C1 -/

theorem dupAtB_zero (hash : String → String) (existing : List String)
    (item : CollectedItem) (rest : List CollectedItem) :
    dupAtB hash existing (item :: rest) 0 = decide (itemHash hash item ∈ existing) := by
  simp [dupAtB]

theorem dupAtB_succ (hash : String → String) (existing : List String)
    (item : CollectedItem) (rest : List CollectedItem) (i : Nat) :
    dupAtB hash existing (item :: rest) (i + 1)
      = dupAtB hash (itemHash hash item :: existing) rest i := by
  simp only [dupAtB, List.getD_cons_succ, List.take_succ_cons, List.map_cons]
  apply decide_eq_decide.mpr
  simp only [List.mem_append, List.mem_cons]
  tauto

theorem dupAtB_congr (hash : String → String) (seen seen' : List String)
    (h : ∀ x, x ∈ seen ↔ x ∈ seen') (items : List CollectedItem) (i : Nat) :
    dupAtB hash seen items i = dupAtB hash seen' items i := by
  apply decide_eq_decide.mpr
  simp only [List.mem_append]
  rw [h]

theorem countP_range_succ (p : Nat → Bool) (n : Nat) :
    (List.range (n + 1)).countP p
      = (if p 0 then 1 else 0) + (List.range n).countP (fun i => p (i + 1)) := by
  rw [List.range_succ_eq_map, List.countP_cons, List.countP_map]
  have : (p ∘ fun i => i + 1) = fun i => p (i + 1) := rfl
  rw [this]
  omega

theorem countP_range_le (p : Nat → Bool) (n : Nat) :
    (List.range n).countP p ≤ n := by
  calc (List.range n).countP p ≤ (List.range n).length := List.countP_le_length _
    _ = n := List.length_range n

theorem ingestGo_spec (hash : String → String) (now : Nat) (sourceId : String)
    (cache : List (String × String)) (items : List CollectedItem) :
    ∀ seen : List String,
      (ingestGo hash now sourceId cache items seen).2.1
          = (List.range items.length).countP (dupAtB hash seen items)
      ∧ (ingestGo hash now sourceId cache items seen).1
          = items.length - (List.range items.length).countP (dupAtB hash seen items)
      ∧ (ingestGo hash now sourceId cache items seen).2.2.length
          = (ingestGo hash now sourceId cache items seen).1 := by
  induction items with
  | nil => intro seen; simp [ingestGo]
  | cons item rest ih =>
    intro seen
    by_cases hmem : hash (String.mk (normaliseText item.content.data)) ∈ seen
    · obtain ⟨ihd, ihn, ihl⟩ := ih seen
      have hstep : ingestGo hash now sourceId cache (item :: rest) seen
          = ((ingestGo hash now sourceId cache rest seen).1,
             (ingestGo hash now sourceId cache rest seen).2.1 + 1,
             (ingestGo hash now sourceId cache rest seen).2.2) := by
        simp only [ingestGo]
        rw [if_pos hmem]
      have hcount : (List.range (item :: rest).length).countP
            (dupAtB hash seen (item :: rest))
          = 1 + (List.range rest.length).countP (dupAtB hash seen rest) := by
        rw [List.length_cons, countP_range_succ]
        have h0 : dupAtB hash seen (item :: rest) 0 = true := by
          rw [dupAtB_zero]
          simp only [itemHash, decide_eq_true_eq]
          exact hmem
        rw [h0, if_pos rfl]
        have hmaps : (fun i => dupAtB hash seen (item :: rest) (i + 1))
            = dupAtB hash (itemHash hash item :: seen) rest :=
          funext fun i => dupAtB_succ hash seen item rest i
        rw [hmaps]
        have hcg : ∀ i, dupAtB hash (itemHash hash item :: seen) rest i
            = dupAtB hash seen rest i := by
          intro i
          apply dupAtB_congr
          intro x
          simp only [List.mem_cons]
          constructor
          · rintro (rfl | hx)
            · exact hmem
            · exact hx
          · intro hx
            exact Or.inr hx
        rw [funext hcg]
      have hle := countP_range_le (dupAtB hash seen rest) rest.length
      refine ⟨?_, ?_, ?_⟩
      · rw [hstep, hcount]
        simp only []
        omega
      · rw [hstep, hcount]
        simp only [List.length_cons]
        omega
      · rw [hstep]
        simp only [List.length_cons]
        rw [ihl]
    · obtain ⟨ihd, ihn, ihl⟩ :=
        ih (hash (String.mk (normaliseText item.content.data)) :: seen)
      have hstep : ingestGo hash now sourceId cache (item :: rest) seen
          = ((ingestGo hash now sourceId cache rest
                (hash (String.mk (normaliseText item.content.data)) :: seen)).1 + 1,
             (ingestGo hash now sourceId cache rest
                (hash (String.mk (normaliseText item.content.data)) :: seen)).2.1,
             mkSample now sourceId cache item (normaliseText item.content.data)
                (hash (String.mk (normaliseText item.content.data)))
               :: (ingestGo hash now sourceId cache rest
                (hash (String.mk (normaliseText item.content.data)) :: seen)).2.2) := by
        simp only [ingestGo]
        rw [if_neg hmem]
      have hcount : (List.range (item :: rest).length).countP
            (dupAtB hash seen (item :: rest))
          = (List.range rest.length).countP
              (dupAtB hash (itemHash hash item :: seen) rest) := by
        rw [List.length_cons, countP_range_succ]
        have h0 : dupAtB hash seen (item :: rest) 0 = false := by
          rw [dupAtB_zero]
          simp only [itemHash, decide_eq_false_iff_not]
          exact hmem
        rw [h0]
        have hmaps : (fun i => dupAtB hash seen (item :: rest) (i + 1))
            = dupAtB hash (itemHash hash item :: seen) rest :=
          funext fun i => dupAtB_succ hash seen item rest i
        rw [hmaps]
        simp
      have hle := countP_range_le (dupAtB hash (itemHash hash item :: seen) rest)
        rest.length
      simp only [itemHash] at hcount hle
      refine ⟨?_, ?_, ?_⟩
      · rw [hstep, hcount]
        exact ihd
      · rw [hstep, hcount]
        simp only [List.length_cons]
        omega
      · rw [hstep]
        simp only [List.length_cons]
        simp [ihl]

/-- C1: intra-batch and against-database deduplication of
`ingest_items`.  First part: a two-item batch whose contents normalise
to the same string, against a database that does not yet contain that
fingerprint, persists exactly one record carrying that fingerprint and
returns stats total 2, new 1, duplicates 1.  Second part, for every
batch: an item is counted as a duplicate (and not persisted) exactly
when its fingerprint is already known, whether loaded from the database
for the source or produced by an earlier item of the same batch; the
persisted samples are exactly the new ones. -/
theorem c1_ingest_dedup :
    (∀ (hash : String → String) (now : Nat) (i1 i2 : CollectedItem)
        (sourceId : String) (existing : List String)
        (cache : List (String × String)),
        normaliseStr i1.content = normaliseStr i2.content →
        hash (normaliseStr i1.content) ∉ existing →
        (ingestItems hash now [i1, i2] sourceId existing cache).1 = ⟨2, 1, 1⟩
        ∧ ((ingestItems hash now [i1, i2] sourceId existing cache).2.map
            (fun s => s.metadata.contentHash)) = [hash (normaliseStr i1.content)])
    ∧ (∀ (hash : String → String) (now : Nat) (items : List CollectedItem)
        (sourceId : String) (existing : List String)
        (cache : List (String × String)),
        (ingestItems hash now items sourceId existing cache).1.total = items.length
        ∧ (ingestItems hash now items sourceId existing cache).1.duplicates
            = (List.range items.length).countP (dupAtB hash existing items)
        ∧ (ingestItems hash now items sourceId existing cache).1.new
            = items.length - (List.range items.length).countP (dupAtB hash existing items)
        ∧ (ingestItems hash now items sourceId existing cache).2.length
            = (ingestItems hash now items sourceId existing cache).1.new) := by
  constructor
  · intro hash now i1 i2 sourceId existing cache heq hnot
    unfold normaliseStr at heq hnot
    have hh2 : hash (String.mk (normaliseText i2.content.data))
        = hash (String.mk (normaliseText i1.content.data)) := by
      rw [← heq]
    have hgo : ingestGo hash now sourceId cache [i1, i2] existing
        = (1, 1, [mkSample now sourceId cache i1 (normaliseText i1.content.data)
            (hash (String.mk (normaliseText i1.content.data)))]) := by
      simp only [ingestGo]
      rw [if_neg hnot, if_pos (by rw [hh2]; exact List.mem_cons_self _ _)]
    constructor
    · show (ingestItems hash now [i1, i2] sourceId existing cache).1 = ⟨2, 1, 1⟩
      unfold ingestItems
      rw [if_neg (by simp), hgo]
      rfl
    · show ((ingestItems hash now [i1, i2] sourceId existing cache).2.map
          (fun s => s.metadata.contentHash)) = [hash (String.mk (normaliseText i1.content.data))]
      unfold ingestItems
      rw [if_neg (by simp), hgo]
      rfl
  · intro hash now items sourceId existing cache
    cases items with
    | nil => simp [ingestItems]
    | cons item rest =>
      obtain ⟨hd, hn, hl⟩ := ingestGo_spec hash now sourceId cache (item :: rest) existing
      have hne : ((item :: rest : List CollectedItem).isEmpty) = false := rfl
      unfold ingestItems
      rw [if_neg (by simp)]
      exact ⟨rfl, hd, hn, hl⟩

/-- C1 witness: the dedup theorem applied to two concrete items whose
contents differ only in whitespace, the identity function as the
fingerprint, and an empty database. -/
theorem c1_dedup_witness :
    (normaliseStr "Flood hits  Leeds" = normaliseStr " Flood hits Leeds ")
    ∧ ((fun s => s) (normaliseStr "Flood hits  Leeds") ∉ ([] : List String))
    ∧ (ingestItems (fun s => s) 0
        [{ title := "A", content := "Flood hits  Leeds", sourceUrl := "u" },
         { title := "B", content := " Flood hits Leeds ", sourceUrl := "u" }]
        "src" [] []).1 = ⟨2, 1, 1⟩ := by
  refine ⟨by decide, by decide, ?_⟩
  exact (c1_ingest_dedup.1 (fun s => s) 0
    { title := "A", content := "Flood hits  Leeds", sourceUrl := "u" }
    { title := "B", content := " Flood hits Leeds ", sourceUrl := "u" }
    "src" [] [] (by decide) (by decide)).1

/-! ## C8 and C10 -/

theorem entrySampleId_mkEntry {σ ε ρ : Type} (f : String → String → σ → Except ε ρ × σ)
    (sid content : String) (st : σ) :
    entrySampleId (mkEntry f sid content st) = sid := by
  unfold mkEntry
  cases (f sid content st).1 <;> rfl

theorem analyzeBatchGo_len {σ ε ρ : Type} (f : String → String → σ → Except ε ρ × σ)
    (pairs : List (String × String)) :
    ∀ st : σ, (analyzeBatchGo f pairs st).1.length = pairs.length := by
  induction pairs with
  | nil => intro st; rfl
  | cons p rest ih =>
    intro st
    simp only [analyzeBatchGo, List.length_cons]
    rw [ih]

theorem analyzeBatchGo_get {σ ε ρ : Type} (f : String → String → σ → Except ε ρ × σ)
    (pairs : List (String × String)) :
    ∀ (st : σ) (i : Nat) (hi : i < (analyzeBatchGo f pairs st).1.length),
      (analyzeBatchGo f pairs st).1.get ⟨i, hi⟩
        = mkEntry f (pairs.getD i ("", "")).1 (pairs.getD i ("", "")).2
            (statesBefore f pairs st i) := by
  induction pairs with
  | nil =>
    intro st i hi
    simp [analyzeBatchGo] at hi
  | cons p rest ih =>
    intro st i hi
    cases i with
    | zero =>
      show (analyzeBatchGo f (p :: rest) st).1.get ⟨0, hi⟩
          = mkEntry f p.1 p.2 (statesBefore f (p :: rest) st 0)
      cases hfr : (f p.1 p.2 st).1 <;>
        simp [analyzeBatchGo, mkEntry, statesBefore, hfr]
    | succ i =>
      have hi2 : i < (analyzeBatchGo f rest (f p.1 p.2 st).2).1.length := by
        have h1 := analyzeBatchGo_len f (p :: rest) st
        have h2 := analyzeBatchGo_len f rest (f p.1 p.2 st).2
        simp only [List.length_cons] at h1
        omega
      have hstep : (analyzeBatchGo f (p :: rest) st).1.get ⟨i + 1, hi⟩
          = (analyzeBatchGo f rest (f p.1 p.2 st).2).1.get ⟨i, hi2⟩ := by
        simp [analyzeBatchGo]
      rw [hstep, ih]
      have hsb : statesBefore f (p :: rest) st (i + 1)
          = statesBefore f rest (f p.1 p.2 st).2 i := by
        simp [statesBefore, List.take_succ_cons]
      rw [hsb]
      simp [List.getD_cons_succ]

/-- C8: for equal-length id and content lists, `analyze_batch` succeeds
and returns exactly one entry per input in input order; entry `i` always
carries the id of input `i`, and equals the result of analysing record
`i` in the session state reached after the previous records: a success
payload when `analyze_sample` succeeds, the error placeholder when it
raises -- so one record's failure leaves every other record analysed. -/
theorem c8_analyze_batch_isolation {σ ε ρ : Type}
    (f : String → String → σ → Except ε ρ × σ)
    (sampleIds contents : List String) (st : σ)
    (h : sampleIds.length = contents.length) :
    ∃ out st2, analyzeBatch f sampleIds contents st = Except.ok (out, st2)
      ∧ out.length = sampleIds.length
      ∧ ∀ i, ∀ hi : i < out.length,
          entrySampleId (out.get ⟨i, hi⟩) = sampleIds.getD i ""
          ∧ out.get ⟨i, hi⟩
              = mkEntry f (sampleIds.getD i "") (contents.getD i "")
                  (statesBefore f (sampleIds.zip contents) st i) := by
  refine ⟨(analyzeBatchGo f (sampleIds.zip contents) st).1,
    (analyzeBatchGo f (sampleIds.zip contents) st).2, ?_, ?_, ?_⟩
  · unfold analyzeBatch
    rw [if_neg (by omega)]
  · rw [analyzeBatchGo_len, List.length_zip, h, Nat.min_self]
  · intro i hi
    have hizip : i < (sampleIds.zip contents).length := by
      rw [← analyzeBatchGo_len f (sampleIds.zip contents) st]
      exact hi
    have hids : i < sampleIds.length := by
      rw [List.length_zip] at hizip
      omega
    have hcts : i < contents.length := by
      rw [List.length_zip] at hizip
      omega
    have hz : (sampleIds.zip contents).getD i ("", "")
        = (sampleIds.getD i "", contents.getD i "") := by
      rw [List.getD_eq_getElem _ _ hizip, List.getD_eq_getElem _ _ hids,
        List.getD_eq_getElem _ _ hcts]
      exact List.getElem_zip
    have hget := analyzeBatchGo_get f (sampleIds.zip contents) st i hi
    rw [hz] at hget
    exact ⟨by rw [hget]; exact entrySampleId_mkEntry f _ _ _, hget⟩

/-- C8 witness: the isolation theorem applied to a concrete three-record
batch whose analyzer fails on the middle record. -/
theorem c8_isolation_witness :
    ((["a", "b", "c"] : List String).length = (["x", "y", "z"] : List String).length)
    ∧ (∃ out st2,
        analyzeBatch
            (fun sid _ st =>
              (if sid = "b" then (Except.error () : Except Unit Unit) else Except.ok (),
                st + 1))
            ["a", "b", "c"] ["x", "y", "z"] (0 : Nat) = Except.ok (out, st2)
        ∧ out.length = (["a", "b", "c"] : List String).length
        ∧ ∀ i, ∀ hi : i < out.length,
            entrySampleId (out.get ⟨i, hi⟩) = (["a", "b", "c"] : List String).getD i ""
            ∧ out.get ⟨i, hi⟩
                = mkEntry
                    (fun sid _ st =>
                      (if sid = "b" then (Except.error () : Except Unit Unit)
                        else Except.ok (), st + 1))
                    ((["a", "b", "c"] : List String).getD i "")
                    ((["x", "y", "z"] : List String).getD i "")
                    (statesBefore
                      (fun sid _ st =>
                        (if sid = "b" then (Except.error () : Except Unit Unit)
                          else Except.ok (), st + 1))
                      ((["a", "b", "c"] : List String).zip ["x", "y", "z"]) 0 i)) :=
  ⟨rfl, c8_analyze_batch_isolation _ ["a", "b", "c"] ["x", "y", "z"] 0 rfl⟩

/-- C10: when the id and content lists have different lengths,
`analyze_batch` raises the length-mismatch `ValueError` before any
per-record work: the result does not depend on the analyzer or on the
session state, and no result list is produced. -/
theorem c10_length_mismatch_raises {σ ε ρ : Type}
    (f g : String → String → σ → Except ε ρ × σ)
    (sampleIds contents : List String) (st st2 : σ)
    (h : sampleIds.length ≠ contents.length) :
    analyzeBatch f sampleIds contents st = Except.error BatchError.lengthMismatch
    ∧ analyzeBatch f sampleIds contents st = analyzeBatch g sampleIds contents st2 := by
  unfold analyzeBatch
  rw [if_pos h, if_pos h]
  exact ⟨rfl, rfl⟩

/-- C10 witness: the mismatch theorem applied to a one-id, zero-content
batch with two different analyzers and states. -/
theorem c10_mismatch_witness :
    ((["a"] : List String).length ≠ ([] : List String).length)
    ∧ (analyzeBatch (fun _ _ (st : Nat) => ((Except.ok () : Except Unit Unit), st))
          ["a"] [] 0 = Except.error BatchError.lengthMismatch
      ∧ analyzeBatch (fun _ _ (st : Nat) => ((Except.ok () : Except Unit Unit), st))
            ["a"] [] 0
          = analyzeBatch (fun _ _ (st : Nat) => ((Except.error () : Except Unit Unit), st))
              ["a"] [] 7) :=
  ⟨by decide,
    c10_length_mismatch_raises
      (fun _ _ (st : Nat) => ((Except.ok () : Except Unit Unit), st))
      (fun _ _ (st : Nat) => ((Except.error () : Except Unit Unit), st))
      ["a"] [] 0 7 (by decide)⟩

/-! ## C9 -/

theorem mkTrendEntry_A :
    mkTrendEntry trendScenarioRows "A" = ⟨"A", 5, 5, 909 / 2000⟩ := by
  unfold mkTrendEntry
  rw [show recentCountOf trendScenarioRows "A" = 5 from by decide,
    show totalRecentOf trendScenarioRows = 10 from by decide,
    show allTimeCount trendScenarioRows "A" = 5 from by decide,
    show totalAllOf trendScenarioRows = 110 from by decide]
  have h1 : ((5 : ℕ) : ℚ) / ((10 : ℕ) : ℚ) - ((5 : ℕ) : ℚ) / ((110 : ℕ) : ℚ)
      = 5 / 11 := by norm_num
  rw [h1, round4, round_eq]
  have h2 : (5 / 11 : ℚ) * 10000 + 1 / 2 = 100011 / 22 := by norm_num
  rw [h2]
  have h3 : ⌊(100011 / 22 : ℚ)⌋ = 4545 := by
    rw [Int.floor_eq_iff]
    constructor <;> norm_num
  rw [h3]
  norm_num

theorem mkTrendEntry_B :
    mkTrendEntry trendScenarioRows "B" = ⟨"B", 5, 105, -(909 / 2000)⟩ := by
  unfold mkTrendEntry
  rw [show recentCountOf trendScenarioRows "B" = 5 from by decide,
    show totalRecentOf trendScenarioRows = 10 from by decide,
    show allTimeCount trendScenarioRows "B" = 105 from by decide,
    show totalAllOf trendScenarioRows = 110 from by decide]
  have h1 : ((5 : ℕ) : ℚ) / ((10 : ℕ) : ℚ) - ((105 : ℕ) : ℚ) / ((110 : ℕ) : ℚ)
      = -(5 / 11) := by norm_num
  rw [h1, round4, round_eq]
  have h2 : (-(5 / 11) : ℚ) * 10000 + 1 / 2 = -(99989 / 22) := by norm_num
  rw [h2]
  have h3 : ⌊(-(99989 / 22) : ℚ)⌋ = -4545 := by
    rw [Int.floor_eq_iff]
    constructor <;> norm_num
  rw [h3]
  norm_num

/-- C9: the trending computation scores each theme that has recent
mentions as its recent-window share minus its all-time share (rounded to
4 decimal places), returns a list sorted by this signed difference in
descending order, truncated to 20 entries; in the concrete scenario of a
theme A with 0 pre-window and 5 recent mentions against a theme B with
100 pre-window and 5 recent mentions, A (score 0.4545) ranks strictly
above B (score -0.4545). -/
theorem c9_trending_themes :
    (∀ rows : List TrendRow,
        (computeTrendingThemes rows).length ≤ 20
        ∧ List.Sorted (fun a b => b.trendScore ≤ a.trendScore)
            (computeTrendingThemes rows)
        ∧ ∀ e ∈ computeTrendingThemes rows,
            e.recentCount = recentCountOf rows e.theme
            ∧ e.historicalCount = allTimeCount rows e.theme
            ∧ e.trendScore
                = round4 ((recentCountOf rows e.theme : ℚ) / (totalRecentOf rows : ℚ)
                  - (allTimeCount rows e.theme : ℚ) / (totalAllOf rows : ℚ)))
    ∧ computeTrendingThemes trendScenarioRows
        = [⟨"A", 5, 5, 909 / 2000⟩, ⟨"B", 5, 105, -(909 / 2000)⟩] := by
  constructor
  · intro rows
    haveI htot : IsTotal TrendEntry (fun a b => b.trendScore ≤ a.trendScore) :=
      ⟨fun a b => le_total b.trendScore a.trendScore⟩
    haveI htr : IsTrans TrendEntry (fun a b => b.trendScore ≤ a.trendScore) :=
      ⟨fun _ _ _ hab hbc => le_trans hbc hab⟩
    refine ⟨?_, ?_, ?_⟩
    · unfold computeTrendingThemes
      rw [List.length_take]
      exact min_le_left _ _
    · unfold computeTrendingThemes
      exact List.Pairwise.sublist (List.take_sublist _ _)
        (List.sorted_insertionSort _ _)
    · intro e he
      unfold computeTrendingThemes at he
      have he2 := List.mem_of_mem_take he
      have he3 : e ∈ (recentThemeNames rows).map (mkTrendEntry rows) :=
        (List.Perm.mem_iff (List.perm_insertionSort _ _)).mp he2
      rcases List.mem_map.mp he3 with ⟨t, _, hmk⟩
      subst hmk
      exact ⟨rfl, rfl, rfl⟩
  · have hnames : recentThemeNames trendScenarioRows = ["A", "B"] := by decide
    have hmap : (recentThemeNames trendScenarioRows).map (mkTrendEntry trendScenarioRows)
        = [⟨"A", 5, 5, 909 / 2000⟩, ⟨"B", 5, 105, -(909 / 2000)⟩] := by
      rw [hnames]
      simp only [List.map_cons, List.map_nil, mkTrendEntry_A, mkTrendEntry_B]
    unfold computeTrendingThemes
    rw [hmap]
    have hsort : (([⟨"A", 5, 5, 909 / 2000⟩, ⟨"B", 5, 105, -(909 / 2000)⟩] :
          List TrendEntry).insertionSort (fun a b => b.trendScore ≤ a.trendScore))
        = [⟨"A", 5, 5, 909 / 2000⟩, ⟨"B", 5, 105, -(909 / 2000)⟩] := by
      simp only [List.insertionSort, List.orderedInsert]
      rw [if_pos (show (-(909 / 2000) : ℚ) ≤ 909 / 2000 by norm_num)]
    rw [hsort]
    exact List.take_of_length_le (by simp)

end Thermo
